import Mathlib

/-!
Verification of the fishroom message interchange format (`fishroom/models.py`).

The development shallowly embeds the data model and the encode/decode
operations of the source file: `Color`, `TextStyle`, the marshmallow field
codecs (`ColorField`, `TextStyleField`, `RichTextField`), the `MessageSchema`
and the `Message` envelope with its total `loads` operation.

Python values travelling through the codecs are modelled by the JSON-compatible
value type `JValue`.  Python strings are modelled by Lean `String` (sequences
of Unicode scalar values; lone surrogates, which can only arise from exotic
`\u` escapes, are not representable and such escapes are rejected by the
modelled parser).  JSON objects are modelled as ordered key/value pair lists;
lookups return the last binding for a key, matching the last-wins semantics of
feeding duplicate JSON keys into a Python dict.

The marshmallow schema plumbing and the `json` module are third-party code that
is not part of this repository; those parts are modelled from the spec and are
marked `Modelled from the spec:` in their doc comments.  Every function taken
from `models.py` keeps its source name and structure.
-/

namespace Fishroom

/-- JSON-compatible Python value: the domain of the wire format and of the
marshmallow field codecs.  Numbers are modelled as integers (every number in
the protocol is an integer; float literals are rejected by the modelled
parser). -/
inductive JValue where
  | null : JValue
  | bool : Bool → JValue
  | int : Int → JValue
  | str : String → JValue
  | arr : List JValue → JValue
  | obj : List (String × JValue) → JValue
  deriving Repr

/-- Error taxonomy of the spec (§7) plus the low-level failure kinds of the
modelled runtime (json parse failure, `TypeError` from `Message(**data)`,
`AttributeError` from reading a missing attribute). -/
inductive JErr where
  | colorStructure : JErr
  | styleList : JErr
  | richTextStructure : JErr
  | enumConstraint : JErr
  | fieldType : JErr
  | jsonParse : JErr
  | schemaLoad : JErr
  | typeError : JErr
  | attributeMissing : JErr
  | unicodeDecode : JErr
  deriving Repr, DecidableEq

/-- Python truthiness (`not value`) on JSON-compatible values. -/
def jFalsy : JValue → Bool
  | .null => true
  | .bool b => !b
  | .int n => n == 0
  | .str s => s.isEmpty
  | .arr xs => xs.isEmpty
  | .obj kvs => kvs.isEmpty

/-- Python dict lookup on the raw pair list: the last binding for a key wins
(duplicate JSON keys overwrite earlier ones in `json.loads`). -/
def jget (kvs : List (String × JValue)) (k : String) : Option JValue :=
  kvs.foldl (fun acc p => if p.1 = k then some p.2 else acc) none

/-- Conversion `int(str)` restricted to ASCII: optional surrounding ASCII
whitespace, an optional sign, then a nonempty run of decimal digits. -/
def pyStrToInt (s : String) : Option Int :=
  let trimmed := ((s.data.dropWhile (fun c => c = ' ' ∨ c = '\t' ∨ c = '\n' ∨ c = '\r')).reverse.dropWhile
      (fun c => c = ' ' ∨ c = '\t' ∨ c = '\n' ∨ c = '\r')).reverse
  let digitsVal : List Char → Option Nat := fun ds =>
    if ds ≠ [] ∧ ds.all Char.isDigit then
      some (ds.foldl (fun a c => a * 10 + (c.toNat - 48)) 0)
    else none
  match trimmed with
  | '-' :: ds => (digitsVal ds).map (fun n => -(n : Int))
  | '+' :: ds => (digitsVal ds).map (fun n => (n : Int))
  | ds => (digitsVal ds).map (fun n => (n : Int))

/-- Python `int(value)` on a JSON-compatible value: ints pass through, bools
are ints (`int(True) = 1`), numeric strings are parsed, everything else raises
`TypeError`/`ValueError`. -/
def pyToInt : JValue → Except JErr Int
  | .int n => .ok n
  | .bool b => .ok (if b then 1 else 0)
  | .str s =>
    match pyStrToInt s with
    | some n => .ok n
    | none => .error .typeError
  | _ => .error .typeError

/-- Iterating a value and unpacking into exactly two variables
(`fg, bg = map(int, value)` draws two elements and requires exhaustion):
a 2-element list yields its elements, a 2-character string yields its
characters, a dict with two (distinct) keys yields the keys, anything else
raises. -/
def pyIter2 : JValue → Except JErr (JValue × JValue)
  | .arr [a, b] => .ok (a, b)
  | .str s =>
    match s.data with
    | [c1, c2] => .ok (.str (String.singleton c1), .str (String.singleton c2))
    | _ => .error .typeError
  | .obj kvs =>
    match kvs with
    | [(k1, _), (k2, _)] =>
      if k1 = k2 then .error .typeError else .ok (.str k1, .str k2)
    | _ => .error .typeError
  | _ => .error .typeError

/-- `Color`: foreground color with optional background (`models.py` lines
32-39). -/
structure Color where
  fg : Int
  bg : Option Int
  deriving Repr, DecidableEq

/-- `Color.__repr__` from the source: `"<color: {}/{}>".format(self.fg, self.bg)`. -/
def Color.reprStr (c : Color) : String :=
  "<color: " ++ toString c.fg ++ "/" ++
    (match c.bg with
     | none => "None"
     | some b => toString b) ++ ">"

/-- `ColorField._serialize` from the source: `None` becomes the empty string,
a color becomes the pair `(fg, bg)` (with `bg` possibly `None`). -/
def colorSerialize (value : Option Color) : JValue :=
  match value with
  | none => .str ""
  | some c =>
    .arr [.int c.fg, match c.bg with | none => .null | some b => .int b]

/-- `ColorField._deserialize` from the source: falsy input gives no color, an
int gives `Color(value)`, otherwise `fg, bg = map(int, value)` with any
failure raising the color structure error. -/
def colorDeserialize (value : JValue) : Except JErr (Option Color) :=
  if jFalsy value then .ok none
  else
    match value with
    | .int n => .ok (some ⟨n, none⟩)
    | .bool _ => .ok (some ⟨1, none⟩)
    | v =>
      match pyIter2 v with
      | .error _ => .error .colorStructure
      | .ok (a, b) =>
        match pyToInt a, pyToInt b with
        | .ok fa, .ok fb => .ok (some ⟨fa, some fb⟩)
        | _, _ => .error .colorStructure

/-- `TextStyle`: a style bitmask together with the optional `color` attribute;
`color := none` models the attribute being absent on the Python object
(`__init__` only assigns it for a truthy argument). -/
structure TextStyle where
  style : Nat
  color : Option Color
  deriving Repr, DecidableEq

namespace TextStyle

def NORMAL : Nat := 0
def COLOR : Nat := 1
def ITALIC : Nat := 2
def BOLD : Nat := 4
def UNDERLINE : Nat := 8

/-- `TextStyle.__init__` from the source: start from the raw `style` bits, OR
in `COLOR` and store the color exactly when a (truthy) color is given, then OR
in each convenience flag that is truthy. -/
def init (color : Option Color) (italic bold underline : Nat) (style : Nat) :
    TextStyle :=
  let st := style
  let stCol : Nat × Option Color :=
    match color with
    | some c => (st ||| COLOR, some c)
    | none => (st, none)
  let st := stCol.1
  let st := if italic ≠ 0 then st ||| ITALIC else st
  let st := if bold ≠ 0 then st ||| BOLD else st
  let st := if underline ≠ 0 then st ||| UNDERLINE else st
  { style := st, color := stCol.2 }

/-- `TextStyle.style_list` from the source: the recognized names of the set
bits, in the fixed order italic, bold, underline. -/
def style_list (style : Nat) : List String :=
  (if style &&& ITALIC ≠ 0 then ["italic"] else []) ++
  (if style &&& BOLD ≠ 0 then ["bold"] else []) ++
  (if style &&& UNDERLINE ≠ 0 then ["underline"] else [])

/-- `TextStyle.__repr__` from the source.  Reading `self.color` when the
attribute was never assigned raises `AttributeError`; this is the `none` case
under a set `COLOR` bit. -/
def reprStr (ts : TextStyle) : Except JErr String :=
  let styles := style_list ts.style
  if ts.style &&& COLOR ≠ 0 then
    match ts.color with
    | none => .error .attributeMissing
    | some c =>
      if styles.isEmpty then .ok (Color.reprStr c)
      else .ok ("<" ++ Color.reprStr c ++ ", [" ++ String.intercalate "," styles ++ "]>")
  else
    if styles.isEmpty then .ok "<normal>"
    else .ok ("<" ++ String.intercalate "," styles ++ ">")

end TextStyle

/-- `TextStyleField._serialize` from the source: `None` becomes the empty
list, a bitmask becomes its recognized style names. -/
def styleSerialize (value : Option Nat) : JValue :=
  match value with
  | none => .arr []
  | some st => .arr ((TextStyle.style_list st).map .str)

/-- Elements a Python `set(...)` can hold: lists and dicts are unhashable. -/
def jHashable : JValue → Bool
  | .arr _ => false
  | .obj _ => false
  | _ => true

/-- The sequential bit accumulation of `TextStyleField._deserialize`, given
the membership test of the set built from the input. -/
def styleBitsOf (mem : String → Bool) : Nat :=
  let style := TextStyle.NORMAL
  let style := if mem "italic" then style ||| TextStyle.ITALIC else style
  let style := if mem "bold" then style ||| TextStyle.BOLD else style
  if mem "underline" then style ||| TextStyle.UNDERLINE else style

/-- `TextStyleField._deserialize` from the source: build `set(value)` (failing
with the style list error when the value is not iterable or holds unhashable
elements), then OR in the bit of every recognized name present; unrecognized
names are ignored.  Iterating a string yields its characters (as 1-character
strings) and iterating a dict yields its keys. -/
def styleDeserialize (value : JValue) : Except JErr Nat :=
  match value with
  | .arr xs =>
    if xs.all jHashable then
      .ok (styleBitsOf (fun nm => xs.any (fun x =>
        match x with
        | .str s => s == nm
        | _ => false)))
    else .error .styleList
  | .str s =>
    .ok (styleBitsOf (fun nm => s.data.any (fun c => String.singleton c == nm)))
  | .obj kvs =>
    .ok (styleBitsOf (fun nm => kvs.any (fun p => p.1 == nm)))
  | _ => .error .styleList

/-- Modelled from the spec: the `TextStyleSchema` dump plumbing (marshmallow
`Schema.dump`, not part of this repository).  It serializes the two declared
fields with the field serializers of the source: the envelope-level style
record is `{color: ColorCodec result, style: TextStyleCodec result}` (§4.2). -/
def styleSchemaDump (ts : TextStyle) : JValue :=
  .obj [("color", colorSerialize ts.color), ("style", styleSerialize (some ts.style))]

/-- Modelled from the spec: the `TextStyleSchema` load plumbing (marshmallow
`Schema.load`, not part of this repository).  A missing `color` key uses the
declared default of no color, a missing `style` key deserializes the declared
default empty list; field failures propagate (§4.2, §7); a non-object input
fails. -/
def styleSchemaLoad (j : JValue) : Except JErr (Option Color × Nat) :=
  match j with
  | .obj kvs => do
    let c ←
      match jget kvs "color" with
      | none => Except.ok none
      | some v => colorDeserialize v
    let st ←
      match jget kvs "style" with
      | none => styleDeserialize (.arr [])
      | some v => styleDeserialize v
    .ok (c, st)
  | _ => .error .schemaLoad

/-- `TextStyle.dump` from the source: serialize through the schema. -/
def TextStyle.dump (ts : TextStyle) : JValue := styleSchemaDump ts

/-- `TextStyle.load` from the source: `TextStyle(**cls._schema.load(data).data)` —
reconstruct via the constructor from the loaded `color` and `style` fields. -/
def TextStyle.load (j : JValue) : Except JErr TextStyle :=
  (styleSchemaLoad j).map fun p => TextStyle.init p.1 0 0 0 p.2

/-- `RichTextField._serialize` from the source: verify every run is a
`(TextStyle, str)` pair (failing wholesale with the rich text structure error
otherwise), then emit `(style.dump(), text)` pairs. -/
def richTextSerialize (runs : List (TextStyle × JValue)) : Except JErr (List JValue) :=
  if runs.all (fun p => match p.2 with | .str _ => true | _ => false) then
    .ok (runs.map (fun p => .arr [TextStyle.dump p.1, p.2]))
  else .error .richTextStructure

/-- One entry of `RichTextField._deserialize`'s comprehension: unpack the pair
and reload the style; the run text is kept as-is (the source does not check its
type on decode). -/
def richTextEntryLoad (entry : JValue) : Except JErr (TextStyle × JValue) :=
  match entry with
  | .arr [sj, tj] => (TextStyle.load sj).map (fun ts => (ts, tj))
  | _ => .error .richTextStructure

/-- `RichTextField._deserialize` from the source: `None` decodes to no rich
text; a list decodes entry-wise with any failure collapsing to the rich text
structure error (all-or-nothing); any non-list, non-null input fails the same
way (iterating it cannot produce well-formed `(style, text)` pairs). -/
def richTextDeserialize (value : JValue) :
    Except JErr (Option (List (TextStyle × JValue))) :=
  match value with
  | .null => .ok none
  | .arr entries =>
    match entries.mapM richTextEntryLoad with
    | .ok runs => .ok (some runs)
    | .error _ => .error .richTextStructure
  | _ => .error .richTextStructure

/-- `Message`: the envelope record (`models.py` lines 223-257).  Run texts in
`rich_text` are raw values because decode does not validate their type. -/
structure Message where
  channel : String
  sender : String
  receiver : String
  content : String
  mtype : String
  date : Option String
  time : Option String
  media_url : Option String
  botmsg : Bool
  room : Option String
  opt : List (String × JValue)
  rich_text : Option (List (TextStyle × JValue))
  deriving Repr

/-- `Message.__init__` from the source, with the Python parameter order and
the `opt or {}` normalization. -/
def Message.init (channel sender receiver content : String) (mtype : String)
    (date time : Option String) (media_url : Option String) (botmsg : Bool)
    (room : Option String) (opt : Option (List (String × JValue)))
    (rich_text : Option (List (TextStyle × JValue))) : Message :=
  { channel := channel, sender := sender, receiver := receiver,
    content := content, mtype := mtype, date := date, time := time,
    media_url := media_url, botmsg := botmsg, room := room,
    opt := opt.getD [], rich_text := rich_text }

/-- The enumerated message kinds of `MessageSchema.mtype`'s `OneOf` validator,
in source order. -/
def mtypeAllowed : List String :=
  ["photo", "text", "sticker", "location", "audio", "command",
   "event", "file", "animation", "video"]

/-- The enumerated channel kinds of `ChannelType`, in source order. -/
def channelKinds : List String := ["xmpp", "irc", "telegram", "web", "api"]

/-- The loaded (pre-constructor) field data of `MessageSchema.load`: each
declared field is either absent or carries its deserialized value. -/
structure MsgData where
  channel : Option String
  sender : Option String
  receiver : Option String
  mtype : Option String
  media_url : Option String
  content : Option String
  rich_text : Option (List (TextStyle × JValue))
  date : Option String
  time : Option String
  botmsg : Option Bool
  room : Option String
  opt : Option (List (String × JValue))

/-- Modelled from the spec: a `fields.String` load (marshmallow, not part of
this repository) — a missing key stays missing, a string passes through, any
other value is a field type error (§7). -/
def loadStrField (kvs : List (String × JValue)) (name : String) :
    Except JErr (Option String) :=
  match jget kvs name with
  | none => .ok none
  | some (.str s) => .ok (some s)
  | some _ => .error .fieldType

/-- Modelled from the spec: the `mtype` field load — a string validated
against the enumerated message kinds, failing with the enum constraint error
outside the set (§3, §7); the validator list is the source's `OneOf` list. -/
def loadMtypeField (kvs : List (String × JValue)) :
    Except JErr (Option String) :=
  match jget kvs "mtype" with
  | none => .ok none
  | some (.str s) =>
    if s ∈ mtypeAllowed then .ok (some s) else .error .enumConstraint
  | some _ => .error .fieldType

/-- Modelled from the spec: a `fields.Boolean` load (marshmallow, not part of
this repository) — a boolean passes through, anything else is a field type
error. -/
def loadBoolField (kvs : List (String × JValue)) (name : String) :
    Except JErr (Option Bool) :=
  match jget kvs name with
  | none => .ok none
  | some (.bool b) => .ok (some b)
  | some _ => .error .fieldType

/-- Modelled from the spec: a `fields.Dict` load (marshmallow, not part of
this repository) — a JSON object passes through as the opaque option bag
(§3), anything else is a field type error. -/
def loadDictField (kvs : List (String × JValue)) (name : String) :
    Except JErr (Option (List (String × JValue))) :=
  match jget kvs name with
  | none => .ok none
  | some (.obj m) => .ok (some m)
  | some _ => .error .fieldType

/-- Modelled from the spec: the `rich_text` field load — a missing key stays
missing, any present value (null included) goes through the source's
`RichTextField._deserialize` (§4.3). -/
def loadRichTextField (kvs : List (String × JValue)) :
    Except JErr (Option (List (TextStyle × JValue))) :=
  match jget kvs "rich_text" with
  | none => .ok none
  | some v => richTextDeserialize v

/-- Modelled from the spec: `MessageSchema.load` (marshmallow, not part of
this repository) — validate and deserialize every declared field of the wire
object in declaration order, propagating the first field error; a non-object
input fails (§4.4, §7). -/
def messageSchemaLoad (j : JValue) : Except JErr MsgData :=
  match j with
  | .obj kvs => do
    let channel ← loadStrField kvs "channel"
    let sender ← loadStrField kvs "sender"
    let receiver ← loadStrField kvs "receiver"
    let mtype ← loadMtypeField kvs
    let media_url ← loadStrField kvs "media_url"
    let content ← loadStrField kvs "content"
    let rich_text ← loadRichTextField kvs
    let date ← loadStrField kvs "date"
    let time ← loadStrField kvs "time"
    let botmsg ← loadBoolField kvs "botmsg"
    let room ← loadStrField kvs "room"
    let opt ← loadDictField kvs "opt"
    .ok ⟨channel, sender, receiver, mtype, media_url, content, rich_text,
         date, time, botmsg, room, opt⟩
  | _ => .error .schemaLoad

/-- `Message(**data)` from the source: the four positional parameters must
have been loaded (otherwise Python raises `TypeError`), every other field
falls back to the constructor default of `Message.__init__`. -/
def msgFromData (d : MsgData) : Except JErr Message :=
  match d.channel, d.sender, d.receiver, d.content with
  | some ch, some se, some re, some co =>
    .ok (Message.init ch se re co (d.mtype.getD "text") d.date d.time
      d.media_url (d.botmsg.getD false) d.room d.opt d.rich_text)
  | _, _, _, _ => .error .typeError

/-- Modelled from the spec: the wire segment of one optional string field —
an absent value contributes no key (§6 allows omission), a present value
contributes its string. -/
def optStrSeg (k : String) (v : Option String) : List (String × JValue) :=
  match v with
  | none => []
  | some s => [(k, .str s)]

/-- Modelled from the spec: the key/value list of a dumped message, in the
schema's declaration order, with the rich-text segment passed in (empty, or
the single serialized `rich_text` binding). -/
def dumpKvs (m : Message) (rtv : List (String × JValue)) : List (String × JValue) :=
  [("channel", .str m.channel), ("sender", .str m.sender),
   ("receiver", .str m.receiver), ("mtype", .str m.mtype)] ++
  (optStrSeg "media_url" m.media_url ++
   ([("content", .str m.content)] ++ (rtv ++
    (optStrSeg "date" m.date ++ (optStrSeg "time" m.time ++
     ([("botmsg", .bool m.botmsg)] ++ (optStrSeg "room" m.room ++
      [("opt", .obj m.opt)])))))))

/-- Modelled from the spec: `MessageSchema.dump` (marshmallow, not part of
this repository) — serialize every field per §3/§6, omitting absent optional
keys (§6 allows omission); `rich_text` serialization may fail and the failure
propagates (encode is not total, §4.4). -/
def messageSchemaDump (m : Message) : Except JErr JValue := do
  let rt : List (String × JValue) ←
    match m.rich_text with
    | none => Except.ok []
    | some runs => (richTextSerialize runs).map (fun v => [("rich_text", .arr v)])
  .ok (.obj (dumpKvs m rt))

/-- `TextStyle` validity per the spec's data model (§3): only the four defined
bits, the `COLOR` bit set iff a color is attached, and the attached color has
its background present (the shape whose serialized form survives
`map(int, ...)`). -/
def TextStyle.validb (ts : TextStyle) : Bool :=
  decide (ts.style < 16) &&
    (match ts.color with
     | some c => decide (ts.style &&& TextStyle.COLOR ≠ 0) && c.bg.isSome
     | none => decide (ts.style &&& TextStyle.COLOR = 0))

instance {ε α : Type} [DecidableEq ε] [DecidableEq α] : DecidableEq (Except ε α) := by
  intro x y
  cases x <;> cases y
  case error.error a b =>
    exact if h : a = b then isTrue (by rw [h]) else isFalse (by intro he; cases he; exact h rfl)
  case ok.ok a b =>
    exact if h : a = b then isTrue (by rw [h]) else isFalse (by intro he; cases he; exact h rfl)
  case error.ok a b => exact isFalse (by intro he; cases he)
  case ok.error a b => exact isFalse (by intro he; cases he)

/-! ## The textual wire format

`Message.dumps`/`Message.loads` go through marshmallow's `dumps`/`loads`,
which combine the schema with Python's `json` module.  The `json` module is
not part of this repository; the functions below are modelled from the spec
(§6: a UTF-8 text payload, one JSON-compatible object per message).  The model
restricts JSON numbers to integers (the only numbers in the protocol), emits
non-ASCII characters raw instead of `\u`-escaped (valid JSON with the same
parse), and rejects `\u` escapes that denote lone surrogates (such code points
are not representable as Lean characters). -/

/-- Decimal digit character. -/
def digitChar (n : Nat) : Char :=
  if n = 0 then '0' else if n = 1 then '1' else if n = 2 then '2'
  else if n = 3 then '3' else if n = 4 then '4' else if n = 5 then '5'
  else if n = 6 then '6' else if n = 7 then '7' else if n = 8 then '8' else '9'

/-- Lowercase hexadecimal digit character. -/
def hexDigitChar (n : Nat) : Char :=
  if n < 10 then digitChar n
  else if n = 10 then 'a' else if n = 11 then 'b' else if n = 12 then 'c'
  else if n = 13 then 'd' else if n = 14 then 'e' else 'f'

/-- The four hex digits of a code unit below `0x10000`. -/
def hex4 (n : Nat) : List Char :=
  [hexDigitChar (n / 4096 % 16), hexDigitChar (n / 256 % 16),
   hexDigitChar (n / 16 % 16), hexDigitChar (n % 16)]

/-- Modelled from the spec: JSON string escaping of `json.dumps` (not part of
this repository): quote and backslash get a backslash escape, control
characters a `\u00xx` escape, everything else is emitted raw. -/
def escChar (c : Char) : List Char :=
  if c = '"' then ['\\', '"']
  else if c = '\\' then ['\\', '\\']
  else if c.toNat < 0x20 then '\\' :: 'u' :: hex4 c.toNat
  else [c]

/-- Serialized string body (escaped characters, then the closing quote). -/
def serStrBody : List Char → List Char
  | [] => ['"']
  | c :: cs => escChar c ++ serStrBody cs

/-- Serialized JSON string. -/
def serStr (s : String) : List Char := '"' :: serStrBody s.data

/-- Decimal digits of a natural number, most significant first (fuelled for
structural recursion; any fuel above the number suffices). -/
def natToCharsFuel : Nat → Nat → List Char
  | 0, _ => []
  | fuel + 1, n =>
    if n < 10 then [digitChar n]
    else natToCharsFuel fuel (n / 10) ++ [digitChar (n % 10)]

/-- Decimal digits of a natural number, most significant first. -/
def natToChars (n : Nat) : List Char := natToCharsFuel (n + 1) n

/-- Decimal representation of an integer. -/
def intToChars (n : Int) : List Char :=
  if n < 0 then '-' :: natToChars n.natAbs else natToChars n.toNat

mutual

/-- Modelled from the spec: the JSON serializer of the wire format
(`json.dumps` with its default `", "`/`": "` separators, as used by
marshmallow's `dumps`; not part of this repository). -/
def serVal : JValue → List Char
  | .null => 'n' :: 'u' :: 'l' :: ['l']
  | .bool true => 't' :: 'r' :: 'u' :: ['e']
  | .bool false => 'f' :: 'a' :: 'l' :: 's' :: ['e']
  | .int n => intToChars n
  | .str s => serStr s
  | .arr xs => '[' :: serElems xs
  | .obj kvs => '{' :: serMembers kvs

/-- Array elements with separators and the closing bracket. -/
def serElems : List JValue → List Char
  | [] => [']']
  | [x] => serVal x ++ [']']
  | x :: xs => serVal x ++ ',' :: ' ' :: serElems xs

/-- Object members with separators and the closing brace. -/
def serMembers : List (String × JValue) → List Char
  | [] => ['}']
  | [(k, v)] => serStr k ++ ':' :: ' ' :: (serVal v ++ ['}'])
  | (k, v) :: kvs => serStr k ++ ':' :: ' ' :: (serVal v ++ ',' :: ' ' :: serMembers kvs)

end

/-- The serialized wire text of a JSON value. -/
def jsonSerialize (v : JValue) : String := String.mk (serVal v)

/-- JSON whitespace. -/
def isJsonWs (c : Char) : Bool := c == ' ' || c == '\t' || c == '\n' || c == '\r'

/-- Drop leading JSON whitespace. -/
def skipWs : List Char → List Char
  | [] => []
  | c :: cs => if isJsonWs c then skipWs cs else c :: cs

/-- Value of a hexadecimal digit character. -/
def hexDigitVal (c : Char) : Option Nat :=
  if '0' ≤ c ∧ c ≤ '9' then some (c.toNat - 48)
  else if 'a' ≤ c ∧ c ≤ 'f' then some (c.toNat - 87)
  else if 'A' ≤ c ∧ c ≤ 'F' then some (c.toNat - 55)
  else none

/-- Short escapes recognized after a backslash. -/
def escMap (e : Char) : Option Char :=
  if e = '"' then some '"'
  else if e = '\\' then some '\\'
  else if e = '/' then some '/'
  else if e = 'b' then some (Char.ofNat 8)
  else if e = 'f' then some (Char.ofNat 12)
  else if e = 'n' then some '\n'
  else if e = 'r' then some '\r'
  else if e = 't' then some '\t'
  else none

/-- Modelled from the spec: the JSON string-body scanner of `json.loads` (not
part of this repository): reads escaped characters up to the closing quote;
raw control characters are rejected (strict mode); `\u` escapes combine
surrogate pairs and reject lone surrogates (unrepresentable as Lean
characters). -/
def parseStringBody : Nat → List Char → Except JErr (List Char × List Char)
  | 0, _ => .error .jsonParse
  | _ + 1, [] => .error .jsonParse
  | fuel + 1, c :: rest =>
    if c = '"' then .ok ([], rest)
    else if c = '\\' then
      match rest with
      | [] => .error .jsonParse
      | e :: rest2 =>
        if e = 'u' then
          match rest2 with
          | c1 :: c2 :: c3 :: c4 :: rest3 =>
            match hexDigitVal c1, hexDigitVal c2, hexDigitVal c3, hexDigitVal c4 with
            | some a, some b, some g, some d =>
              let n := ((a * 16 + b) * 16 + g) * 16 + d
              if n < 0xD800 ∨ 0xE000 ≤ n then
                match parseStringBody fuel rest3 with
                | .ok (cs, rem) => .ok (Char.ofNat n :: cs, rem)
                | .error err => .error err
              else if n < 0xDC00 then
                match rest3 with
                | b1 :: b2 :: d1 :: d2 :: d3 :: d4 :: rest4 =>
                  if b1 = '\\' ∧ b2 = 'u' then
                    match hexDigitVal d1, hexDigitVal d2, hexDigitVal d3, hexDigitVal d4 with
                    | some a2, some b2v, some g2, some d2v =>
                      let m := ((a2 * 16 + b2v) * 16 + g2) * 16 + d2v
                      if 0xDC00 ≤ m ∧ m < 0xE000 then
                        match parseStringBody fuel rest4 with
                        | .ok (cs, rem) =>
                          .ok (Char.ofNat (0x10000 + (n - 0xD800) * 0x400 + (m - 0xDC00)) :: cs, rem)
                        | .error err => .error err
                      else .error .jsonParse
                    | _, _, _, _ => .error .jsonParse
                  else .error .jsonParse
                | _ => .error .jsonParse
              else .error .jsonParse
            | _, _, _, _ => .error .jsonParse
          | _ => .error .jsonParse
        else
          match escMap e with
          | some ec =>
            match parseStringBody fuel rest2 with
            | .ok (cs, rem) => .ok (ec :: cs, rem)
            | .error err => .error err
          | none => .error .jsonParse
    else if c.toNat < 0x20 then .error .jsonParse
    else
      match parseStringBody fuel rest with
      | .ok (cs, rem) => .ok (c :: cs, rem)
      | .error err => .error err

/-- Numeric value of a decimal digit character. -/
def digitVal (c : Char) : Nat := c.toNat - 48

/-- Split the maximal run of leading decimal digits. -/
def takeDigits : List Char → List Char × List Char
  | [] => ([], [])
  | c :: cs =>
    if c.isDigit then
      let p := takeDigits cs
      (c :: p.1, p.2)
    else ([], c :: cs)

/-- Value of a digit run, most significant first. -/
def digitsToNat (ds : List Char) : Nat :=
  ds.foldl (fun a c => a * 10 + digitVal c) 0

/-- Does the input continue a number (more digits, or a float continuation the
integer-only model rejects)? -/
def headNumCont : List Char → Bool
  | [] => false
  | c :: _ => c.isDigit || c == '.' || c == 'e' || c == 'E'

/-- Unsigned integer token per the JSON grammar: `0`, or a nonzero leading
digit followed by digits; leading zeros and float continuations are
rejected. -/
def parseNatToken (cs : List Char) : Except JErr (Nat × List Char) :=
  match cs with
  | [] => .error .jsonParse
  | c :: rest =>
    if c = '0' then
      if headNumCont rest then .error .jsonParse else .ok (0, rest)
    else if c.isDigit then
      let p := takeDigits (c :: rest)
      if headNumCont p.2 then .error .jsonParse else .ok (digitsToNat p.1, p.2)
    else .error .jsonParse

/-- Signed integer token. -/
def parseIntToken (cs : List Char) : Except JErr (Int × List Char) :=
  match cs with
  | [] => .error .jsonParse
  | c :: rest =>
    if c = '-' then
      match parseNatToken rest with
      | .ok (m, rem) => .ok (-(m : Int), rem)
      | .error e => .error e
    else
      match parseNatToken (c :: rest) with
      | .ok (m, rem) => .ok ((m : Int), rem)
      | .error e => .error e

mutual

/-- Modelled from the spec: the JSON parser of `json.loads` (not part of this
repository), fuelled for termination: a fuel of one more than the input length
always suffices. -/
def parseVal : Nat → List Char → Except JErr (JValue × List Char)
  | 0, _ => .error .jsonParse
  | fuel + 1, cs =>
    match skipWs cs with
    | [] => .error .jsonParse
    | c :: rest => parseValHead fuel c rest

/-- Dispatch on the first significant character of a JSON value. -/
def parseValHead (fuel : Nat) (c : Char) (rest : List Char) :
    Except JErr (JValue × List Char) :=
  if c = 'n' then
    match rest with
    | 'u' :: 'l' :: 'l' :: rest2 => .ok (.null, rest2)
    | _ => .error .jsonParse
  else if c = 't' then
    match rest with
    | 'r' :: 'u' :: 'e' :: rest2 => .ok (.bool true, rest2)
    | _ => .error .jsonParse
  else if c = 'f' then
    match rest with
    | 'a' :: 'l' :: 's' :: 'e' :: rest2 => .ok (.bool false, rest2)
    | _ => .error .jsonParse
  else if c = '"' then
    match parseStringBody (rest.length + 1) rest with
    | .ok (cs2, rem) => .ok (.str (String.mk cs2), rem)
    | .error e => .error e
  else if c = '[' then
    match skipWs rest with
    | [] => .error .jsonParse
    | c2 :: rest2 =>
      if c2 = ']' then .ok (.arr [], rest2)
      else
        match fuel with
        | 0 => .error .jsonParse
        | g + 1 =>
          match parseElems g (c2 :: rest2) with
          | .ok (xs, rem) => .ok (.arr xs, rem)
          | .error e => .error e
  else if c = '{' then
    match skipWs rest with
    | [] => .error .jsonParse
    | c2 :: rest2 =>
      if c2 = '}' then .ok (.obj [], rest2)
      else
        match fuel with
        | 0 => .error .jsonParse
        | g + 1 =>
          match parseMembers g (c2 :: rest2) with
          | .ok (kvs, rem) => .ok (.obj kvs, rem)
          | .error e => .error e
  else
    match parseIntToken (c :: rest) with
    | .ok (n, rem) => .ok (.int n, rem)
    | .error e => .error e

/-- Elements of a non-empty array up to the closing bracket. -/
def parseElems : Nat → List Char → Except JErr (List JValue × List Char)
  | 0, _ => .error .jsonParse
  | fuel + 1, cs =>
    match parseVal fuel cs with
    | .error e => .error e
    | .ok (v, rest) => parseElemsTail fuel v rest

/-- Continuation after one array element: a comma continues, a bracket
closes. -/
def parseElemsTail (fuel : Nat) (v : JValue) (cs : List Char) :
    Except JErr (List JValue × List Char) :=
  match skipWs cs with
  | [] => .error .jsonParse
  | c :: rest2 =>
    if c = ',' then
      match fuel with
      | 0 => .error .jsonParse
      | g + 1 =>
        match parseElems g rest2 with
        | .ok (xs, rem) => .ok (v :: xs, rem)
        | .error e => .error e
    else if c = ']' then .ok ([v], rest2)
    else .error .jsonParse

/-- Members of a non-empty object up to the closing brace; duplicate keys keep
all pairs in order (lookups return the last, matching dict overwrite). -/
def parseMembers : Nat → List Char → Except JErr (List (String × JValue) × List Char)
  | 0, _ => .error .jsonParse
  | fuel + 1, cs =>
    match skipWs cs with
    | [] => .error .jsonParse
    | c :: rest =>
      if c = '"' then
        match parseStringBody (rest.length + 1) rest with
        | .error e => .error e
        | .ok (kcs, rest2) => parseMemberAfterKey fuel (String.mk kcs) rest2
      else .error .jsonParse

/-- Continuation after an object key: expect a colon, then the value. -/
def parseMemberAfterKey (fuel : Nat) (k : String) (cs : List Char) :
    Except JErr (List (String × JValue) × List Char) :=
  match skipWs cs with
  | [] => .error .jsonParse
  | c2 :: rest3 =>
    if c2 = ':' then
      match fuel with
      | 0 => .error .jsonParse
      | g + 1 =>
        match parseVal g rest3 with
        | .error e => .error e
        | .ok (v, rest4) => parseMemberTail g k v rest4
    else .error .jsonParse

/-- Continuation after one object member: a comma continues, a brace
closes. -/
def parseMemberTail (fuel : Nat) (k : String) (v : JValue) (cs : List Char) :
    Except JErr (List (String × JValue) × List Char) :=
  match skipWs cs with
  | [] => .error .jsonParse
  | c3 :: rest5 =>
    if c3 = ',' then
      match fuel with
      | 0 => .error .jsonParse
      | g + 1 =>
        match parseMembers g rest5 with
        | .ok (kvs, rem) => .ok ((k, v) :: kvs, rem)
        | .error e => .error e
    else if c3 = '}' then .ok ([(k, v)], rest5)
    else .error .jsonParse

end

/-- Modelled from the spec: `json.loads` on wire text (not part of this
repository): parse one value and require only whitespace after it.  Twice the
input length plus two is always enough fuel. -/
def jsonParse (s : String) : Except JErr JValue :=
  match parseVal (2 * s.data.length + 2) s.data with
  | .error e => .error e
  | .ok (v, rest) => if (skipWs rest).isEmpty then .ok v else .error .jsonParse

/-- `Message.dumps` from the source: schema dump, then JSON text. -/
def Message.dumps (m : Message) : Except JErr String :=
  (messageSchemaDump m).map jsonSerialize

/-- The pipeline inside `Message.loads`'s `try` block: json parse, schema
load, constructor call. -/
def messageLoadPipeline (s : String) : Except JErr Message := do
  let j ← jsonParse s
  let d ← messageSchemaLoad j
  msgFromData d

/-- The fixed sentinel `Message("fishroom", "fishroom", "None", "Error")` of
the source's `except` clause, with every other constructor parameter at its
default. -/
def sentinelMsg : Message :=
  Message.init "fishroom" "fishroom" "None" "Error" "text" none none none false none none none

/-- `Message.loads` from the source (text input): any failure anywhere in the
pipeline is caught and replaced by the fixed sentinel message. -/
def Message.loads (s : String) : Message :=
  match messageLoadPipeline s with
  | .ok m => m
  | .error _ => sentinelMsg

/-- Strict UTF-8 decoding per RFC 3629, as performed by Python's
`bytes.decode("utf-8")`: rejects overlong forms, surrogates and out-of-range
code points.  Modelled from the spec (§6: the wire is a UTF-8 text payload);
the decoder itself is library code not in this repository. -/
def utf8Decode : List Nat → Option (List Char)
  | [] => some []
  | b1 :: rest =>
    if b1 < 0x80 then
      (utf8Decode rest).map (fun cs => Char.ofNat b1 :: cs)
    else if b1 < 0xC2 then none
    else if b1 < 0xE0 then
      match rest with
      | b2 :: rest2 =>
        if 0x80 ≤ b2 ∧ b2 < 0xC0 then
          (utf8Decode rest2).map (fun cs => Char.ofNat ((b1 - 0xC0) * 64 + (b2 - 0x80)) :: cs)
        else none
      | _ => none
    else if b1 < 0xF0 then
      match rest with
      | b2 :: b3 :: rest2 =>
        let lo2 := if b1 = 0xE0 then 0xA0 else 0x80
        let hi2 := if b1 = 0xED then 0xA0 else 0xC0
        if (lo2 ≤ b2 ∧ b2 < hi2) ∧ (0x80 ≤ b3 ∧ b3 < 0xC0) then
          (utf8Decode rest2).map (fun cs =>
            Char.ofNat ((b1 - 0xE0) * 4096 + (b2 - 0x80) * 64 + (b3 - 0x80)) :: cs)
        else none
      | _ => none
    else if b1 < 0xF5 then
      match rest with
      | b2 :: b3 :: b4 :: rest2 =>
        let lo2 := if b1 = 0xF0 then 0x90 else 0x80
        let hi2 := if b1 = 0xF4 then 0x90 else 0xC0
        if (lo2 ≤ b2 ∧ b2 < hi2) ∧ (0x80 ≤ b3 ∧ b3 < 0xC0) ∧ (0x80 ≤ b4 ∧ b4 < 0xC0) then
          (utf8Decode rest2).map (fun cs =>
            Char.ofNat ((b1 - 0xF0) * 262144 + (b2 - 0x80) * 4096 +
              (b3 - 0x80) * 64 + (b4 - 0x80)) :: cs)
        else none
      | _ => none
    else none

/-- `Message.loads` from the source, on a bytes input: the
`jstr.decode("utf-8")` step runs before the `try` block, so a decoding
failure propagates to the caller instead of being converted to the
sentinel. -/
def Message.loadsBytes (bs : List Nat) : Except JErr Message :=
  match utf8Decode bs with
  | none => .error .unicodeDecode
  | some cs => .ok (Message.loads (String.mk cs))

/-- One rich-text run is well-formed when its style is a valid `TextStyle` and
its text is a string (the shape the encoder accepts and the decoder
restores). -/
def strRun (p : TextStyle × JValue) : Bool :=
  p.1.validb && (match p.2 with | .str _ => true | _ => false)

/-- `Message` validity per the spec's data model (§3): enumerated channel and
mtype, and every rich-text run well-formed. -/
def Message.validb (m : Message) : Bool :=
  decide (m.channel ∈ channelKinds) && decide (m.mtype ∈ mtypeAllowed) &&
    (match m.rich_text with
     | none => true
     | some runs => runs.all strRun)

/-- The field data that loading a dumped message recovers: the four required
strings, `mtype`, `botmsg` and `opt` always present, optional fields as in the
message. -/
def msgDataOf (m : Message) : MsgData :=
  ⟨some m.channel, some m.sender, some m.receiver, some m.mtype, m.media_url,
   some m.content, m.rich_text, m.date, m.time, some m.botmsg, m.room, some m.opt⟩

/-- The `__main__` scenario style: `TextStyle(color=Color(5, 6), italic=1)`. -/
def tsScenario : TextStyle := TextStyle.init (some ⟨5, some 6⟩) 1 0 0 0

/-- The `__main__` scenario message: telegram, tester to tester2, content
"test", one rich-text run. -/
def msgScenario : Message :=
  Message.init "telegram" "tester" "tester2" "test" "text" none none none false
    none none (some [(tsScenario, .str "test")])

/-- A message whose rich-text style carries `Color(5)` with no background: its
dump succeeds but reloading the dumped color fails. -/
def msgC5cex : Message :=
  Message.init "telegram" "tester" "tester2" "test" "text" none none none false
    none none (some [(TextStyle.init (some ⟨5, none⟩) 0 0 0 0, .str "test")])

/-! ## Basic round-trip lemmas for the leaf codecs -/

/-- A color with both components round-trips through `ColorField`. -/
theorem color_rt_pair (fg bg : Int) :
    colorDeserialize (colorSerialize (some ⟨fg, some bg⟩)) = .ok (some ⟨fg, some bg⟩) := rfl

/-- The absent color round-trips through `ColorField` (empty string is falsy). -/
theorem color_rt_none : colorDeserialize (colorSerialize none) = .ok none := rfl

theorem and14_or1 (st : Nat) (h1 : st < 16) (h2 : st &&& 1 ≠ 0) :
    (st &&& 14) ||| 1 = st := by
  interval_cases st <;> first | decide | exact absurd h2 (by decide)

theorem and14_id (st : Nat) (h1 : st < 16) (h2 : st &&& 1 = 0) :
    st &&& 14 = st := by
  interval_cases st <;> first | decide | exact absurd h2 (by decide)

/-- Deserializing the serialized style-name list of a 4-bit mask recovers the
non-color bits. -/
theorem styleDeserialize_names (st : Nat) (hst : st < 16) :
    styleDeserialize (.arr ((TextStyle.style_list st).map .str)) = .ok (st &&& 14) := by
  interval_cases st <;> rfl

/-- Unfolding `TextStyle.load` on a two-field style object. -/
theorem TextStyle.load_obj (cv sv : JValue) :
    TextStyle.load (.obj [("color", cv), ("style", sv)]) =
      (colorDeserialize cv).bind fun c =>
        (styleDeserialize sv).map fun st => TextStyle.init c 0 0 0 st := by
  have hc : jget [("color", cv), ("style", sv)] "color" = some cv := rfl
  have hs : jget [("color", cv), ("style", sv)] "style" = some sv := rfl
  simp only [TextStyle.load, styleSchemaLoad, hc, hs]
  cases colorDeserialize cv with
  | error e => rfl
  | ok c =>
    cases styleDeserialize sv with
    | error e => rfl
    | ok st => rfl

/-- Valid text styles round-trip through dump/load. -/
theorem TextStyle.load_dump (ts : TextStyle) (h : ts.validb = true) :
    TextStyle.load (TextStyle.dump ts) = .ok ts := by
  obtain ⟨st, col⟩ := ts
  cases col with
  | none =>
    simp only [TextStyle.validb, Bool.and_eq_true, decide_eq_true_eq] at h
    obtain ⟨h1, h2⟩ := h
    rw [show TextStyle.dump ⟨st, none⟩ =
        .obj [("color", colorSerialize none),
              ("style", .arr ((TextStyle.style_list st).map .str))] from rfl,
      TextStyle.load_obj, color_rt_none]
    simp only [Except.bind, styleDeserialize_names st h1, Except.map]
    rw [show TextStyle.init none 0 0 0 (st &&& 14) = ⟨st &&& 14, none⟩ from rfl,
      and14_id st h1 h2]
  | some c =>
    simp only [TextStyle.validb, Bool.and_eq_true, decide_eq_true_eq,
      Option.isSome_iff_exists] at h
    obtain ⟨h1, h2, b, hb⟩ := h
    obtain ⟨f, bg⟩ := c
    cases hb
    rw [show TextStyle.dump ⟨st, some ⟨f, some b⟩⟩ =
        .obj [("color", colorSerialize (some ⟨f, some b⟩)),
              ("style", .arr ((TextStyle.style_list st).map .str))] from rfl,
      TextStyle.load_obj, color_rt_pair]
    simp only [Except.bind, styleDeserialize_names st h1, Except.map]
    rw [show TextStyle.init (some ⟨f, some b⟩) 0 0 0 (st &&& 14) =
        ⟨(st &&& 14) ||| 1, some ⟨f, some b⟩⟩ from rfl,
      and14_or1 st h1 h2]

/-! ## Claims about the leaf codecs -/

/-- C2 counterexample: the round-trip `decode(encode(c)) == c` fails for the
valid color `Color(fg=5, bg absent)` — the serializer emits `(5, None)` and
`map(int, (5, None))` raises, so deserialization fails with the color
structure error instead of returning the color. -/
theorem c2_color_roundtrip_cex :
    colorSerialize (some ⟨5, none⟩) = .arr [.int 5, .null] ∧
    colorDeserialize (colorSerialize (some ⟨5, none⟩)) = .error .colorStructure ∧
    colorDeserialize (colorSerialize (some ⟨5, none⟩)) ≠ .ok (some ⟨5, none⟩) :=
  ⟨rfl, rfl, by decide⟩

/-- C2 (amended): the `ColorField` round-trip holds for every color whose
background is present, and for the absent color; it fails precisely when a
color carries no background (see the counterexample). -/
theorem c2_color_roundtrip_amended :
    (∀ fg bg : Int,
      colorDeserialize (colorSerialize (some ⟨fg, some bg⟩)) = .ok (some ⟨fg, some bg⟩)) ∧
    colorDeserialize (colorSerialize none) = .ok none :=
  ⟨color_rt_pair, color_rt_none⟩

/-- C4 counterexample: the `TextStyle` round-trip fails for the valid style
carrying `Color(fg=5, bg absent)`: its dump holds `color: [5, null]`, whose
reload raises the color structure error, so `TextStyle.load(s.dump())` fails
instead of returning `s`. -/
theorem c4_textstyle_roundtrip_cex :
    TextStyle.load (TextStyle.dump (TextStyle.init (some ⟨5, none⟩) 0 0 0 0)) =
      .error .colorStructure ∧
    TextStyle.load (TextStyle.dump (TextStyle.init (some ⟨5, none⟩) 0 0 0 0)) ≠
      .ok (TextStyle.init (some ⟨5, none⟩) 0 0 0 0) :=
  ⟨rfl, by decide⟩

/-- C4 (amended): for every valid `TextStyle` — four defined bits, `COLOR` bit
iff a color is attached, and any attached color carrying a background —
`TextStyle.load (s.dump())` returns exactly `s` (same bitmask, same color).
Styles whose color has no background fail to reload (see the
counterexample). -/
theorem c4_textstyle_roundtrip_amended (ts : TextStyle) (h : ts.validb = true) :
    TextStyle.load (TextStyle.dump ts) = .ok ts :=
  TextStyle.load_dump ts h

theorem c4_textstyle_roundtrip_amended_witness :
    (TextStyle.init (some ⟨5, some 6⟩) 1 0 0 0).validb = true ∧
    TextStyle.load (TextStyle.dump (TextStyle.init (some ⟨5, some 6⟩) 1 0 0 0)) =
      .ok (TextStyle.init (some ⟨5, some 6⟩) 1 0 0 0) :=
  ⟨by decide, c4_textstyle_roundtrip_amended (TextStyle.init (some ⟨5, some 6⟩) 1 0 0 0) (by decide)⟩

/-- C6 counterexample: `ColorField._deserialize` does not fail on every shape
other than an int or a 2-element int sequence — `map(int, value)` coerces, so
decoding the 2-element sequence of digit strings `["1", "2"]` succeeds with
`Color(1, 2)` instead of raising the color structure error. -/
theorem c6_colorcodec_contract_cex :
    colorDeserialize (.arr [.str "1", .str "2"]) = .ok (some ⟨1, some 2⟩) ∧
    colorDeserialize (.arr [.str "1", .str "2"]) ≠ .error .colorStructure :=
  ⟨rfl, by decide⟩

/-- C6 (amended): the decode contract of `ColorField._deserialize`: empty or
falsy input (`0` included) gives no color; a nonzero integer `n` gives
`Color(n, bg absent)` (and `True`, an int in Python, gives `Color(1)`); a
2-element sequence succeeds iff both elements are `int()`-coercible (ints,
bools, numeric strings — e.g. `["1","2"]` or the string `"12"` give
`Color(1,2)`), and fails with the color structure error otherwise; wrong
arity (1 element, or 3 and more — in particular `[1,2,3]`) and non-coercible
content (in particular `"red"`) fail with the color structure error. -/
theorem c6_colorcodec_contract :
    (∀ v : JValue, jFalsy v = true → colorDeserialize v = .ok none) ∧
    (∀ n : Int, n ≠ 0 → colorDeserialize (.int n) = .ok (some ⟨n, none⟩)) ∧
    (∀ a b : JValue, ∀ va vb : Int, pyToInt a = .ok va → pyToInt b = .ok vb →
      colorDeserialize (.arr [a, b]) = .ok (some ⟨va, some vb⟩)) ∧
    (∀ a b : JValue, pyToInt a = .error .typeError →
      colorDeserialize (.arr [a, b]) = .error .colorStructure) ∧
    (∀ a b : JValue, ∀ va : Int, pyToInt a = .ok va → pyToInt b = .error .typeError →
      colorDeserialize (.arr [a, b]) = .error .colorStructure) ∧
    (∀ a : JValue, colorDeserialize (.arr [a]) = .error .colorStructure) ∧
    (∀ x y z : JValue, ∀ t : List JValue,
      colorDeserialize (.arr (x :: y :: z :: t)) = .error .colorStructure) ∧
    colorDeserialize (.arr [.int 1, .int 2, .int 3]) = .error .colorStructure ∧
    colorDeserialize (.str "red") = .error .colorStructure ∧
    colorDeserialize (.str "12") = .ok (some ⟨1, some 2⟩) ∧
    colorDeserialize (.bool true) = .ok (some ⟨1, none⟩) := by
  refine ⟨?_, ?_, ?_, ?_, ?_, ?_, ?_, rfl, rfl, rfl, rfl⟩
  · intro v h
    unfold colorDeserialize
    rw [h]
    rfl
  · intro n h
    have hf : jFalsy (.int n) = false := by
      simp [jFalsy, h]
    unfold colorDeserialize
    rw [hf]
    rfl
  · intro a b va vb ha hb
    have h0 : colorDeserialize (.arr [a, b]) =
        (match pyToInt a, pyToInt b with
         | .ok fa, .ok fb => .ok (some ⟨fa, some fb⟩)
         | _, _ => .error .colorStructure) := rfl
    rw [h0, ha, hb]
  · intro a b ha
    have h0 : colorDeserialize (.arr [a, b]) =
        (match pyToInt a, pyToInt b with
         | .ok fa, .ok fb => .ok (some ⟨fa, some fb⟩)
         | _, _ => .error .colorStructure) := rfl
    rw [h0, ha]
  · intro a b va ha hb
    have h0 : colorDeserialize (.arr [a, b]) =
        (match pyToInt a, pyToInt b with
         | .ok fa, .ok fb => .ok (some ⟨fa, some fb⟩)
         | _, _ => .error .colorStructure) := rfl
    rw [h0, ha, hb]
  · intro a
    rfl
  · intro x y z t
    rfl

theorem c6_colorcodec_contract_witness :
    colorDeserialize .null = .ok none ∧
    colorDeserialize (.int 0) = .ok none ∧
    colorDeserialize (.int 7) = .ok (some ⟨7, none⟩) ∧
    colorDeserialize (.arr [.str "1", .bool true]) = .ok (some ⟨1, some 1⟩) ∧
    colorDeserialize (.arr [.null, .int 2]) = .error .colorStructure ∧
    colorDeserialize (.arr [.int 3, .obj []]) = .error .colorStructure ∧
    colorDeserialize (.arr [.int 5]) = .error .colorStructure :=
  ⟨c6_colorcodec_contract.1 .null rfl,
   c6_colorcodec_contract.1 (.int 0) rfl,
   c6_colorcodec_contract.2.1 7 (by decide),
   c6_colorcodec_contract.2.2.1 (.str "1") (.bool true) 1 1 rfl rfl,
   c6_colorcodec_contract.2.2.2.1 .null (.int 2) rfl,
   c6_colorcodec_contract.2.2.2.2.1 (.int 3) (.obj []) 3 rfl rfl,
   c6_colorcodec_contract.2.2.2.2.2.1 (.int 5)⟩

theorem any_strname (names : List String) (nm : String) :
    ((names.map JValue.str).any fun x =>
      match x with
      | .str s => s == nm
      | _ => false) = decide (nm ∈ names) := by
  induction names with
  | nil => rfl
  | cons h t ih =>
    rw [List.map_cons, List.any_cons, ih]
    show (h == nm || decide (nm ∈ t)) = decide (nm ∈ h :: t)
    rw [Bool.eq_iff_iff]
    simp only [Bool.or_eq_true, beq_iff_eq, decide_eq_true_eq, List.mem_cons]
    constructor
    · rintro (he | hm)
      · exact Or.inl he.symm
      · exact Or.inr hm
    · rintro (he | hm)
      · exact Or.inl he.symm
      · exact Or.inr hm

/-- Deserializing a list of strings computes the bits from plain set
membership. -/
theorem styleDeserialize_strs (names : List String) :
    styleDeserialize (.arr (names.map .str)) =
      .ok (styleBitsOf (fun nm => decide (nm ∈ names))) := by
  have hall : ((names.map JValue.str).all jHashable) = true := by
    induction names with
    | nil => rfl
    | cons h t ih =>
      simp only [List.map_cons, List.all_cons, Bool.and_eq_true]
      exact ⟨rfl, ih⟩
  have h0 : styleDeserialize (.arr (names.map .str)) =
      if ((names.map JValue.str).all jHashable) = true then
        .ok (styleBitsOf fun nm => (names.map JValue.str).any fun x =>
          match x with
          | .str s => s == nm
          | _ => false)
      else .error .styleList := rfl
  rw [h0, hall, if_pos rfl]
  congr 2
  funext nm
  exact any_strname names nm

/-- C7: `TextStyleField._deserialize` treats a list of style names as a set,
ORs in the italic/bold/underline bit exactly when the corresponding name is
present, and silently ignores every unrecognized name; in particular decoding
`["bold", "sparkle"]` yields exactly the `BOLD` bit. -/
theorem c7_style_leniency :
    (∀ names : List String,
      styleDeserialize (.arr (names.map .str)) =
        .ok ((if "italic" ∈ names then TextStyle.ITALIC else 0) |||
             (if "bold" ∈ names then TextStyle.BOLD else 0) |||
             (if "underline" ∈ names then TextStyle.UNDERLINE else 0))) ∧
    styleDeserialize (.arr [.str "bold", .str "sparkle"]) = .ok TextStyle.BOLD := by
  refine ⟨?_, rfl⟩
  intro names
  rw [styleDeserialize_strs]
  congr 1
  simp only [styleBitsOf]
  by_cases hi : "italic" ∈ names <;> by_cases hb : "bold" ∈ names <;>
    by_cases hu : "underline" ∈ names <;>
      simp [hi, hb, hu, TextStyle.NORMAL, TextStyle.ITALIC, TextStyle.BOLD,
        TextStyle.UNDERLINE]

/-- C10: `TextStyleField._deserialize` on any plain string input succeeds and
returns `NORMAL`: a string is iterable, so `set(value)` is the set of its
characters (1-character strings), and none of the recognized multi-character
names can be a member. -/
theorem c10_string_style_normal :
    ∀ s : String, styleDeserialize (.str s) = .ok TextStyle.NORMAL := by
  intro s
  have hgen : ∀ nm : String, nm.data.length ≠ 1 →
      (s.data.any fun c => String.singleton c == nm) = false := by
    intro nm hlen
    rw [List.any_eq_false]
    intro c _
    simp only [beq_iff_eq]
    intro heq
    apply hlen
    rw [← heq]
    rfl
  have h0 : styleDeserialize (.str s) =
      .ok (styleBitsOf (fun nm => s.data.any fun c => String.singleton c == nm)) := rfl
  rw [h0]
  congr 1
  simp only [styleBitsOf, hgen "italic" (by decide), hgen "bold" (by decide),
    hgen "underline" (by decide), Bool.false_eq_true, if_false]

/-- C8: `TextStyle.__init__` does not enforce the color-iff-COLOR-bit
invariant: `TextStyle(style=COLOR)` produces a value with the `COLOR` bit set
but no `color` attribute (so `__repr__` on it raises `AttributeError`),
whereas constructing with any color always sets the `COLOR` bit and stores the
color. -/
theorem c8_color_invariant_unenforced :
    (TextStyle.init none 0 0 0 TextStyle.COLOR).style &&& TextStyle.COLOR ≠ 0 ∧
    (TextStyle.init none 0 0 0 TextStyle.COLOR).color = none ∧
    TextStyle.reprStr (TextStyle.init none 0 0 0 TextStyle.COLOR) =
      .error .attributeMissing ∧
    (∀ (c : Color) (i b u st : Nat),
      (TextStyle.init (some c) i b u st).style &&& TextStyle.COLOR ≠ 0 ∧
      (TextStyle.init (some c) i b u st).color = some c) := by
  have keyBit : ∀ x y : Nat, x &&& 1 ≠ 0 → (x ||| y) &&& 1 ≠ 0 := by
    intro x y h
    have hx : x.testBit 0 = true := by
      simpa [Nat.testBit, Nat.and_one_is_mod, Nat.and_comm] using h
    have hxy : (x ||| y).testBit 0 = true := by
      rw [Nat.testBit_lor, hx]
      rfl
    simpa [Nat.testBit, Nat.and_one_is_mod, Nat.and_comm] using hxy
  have baseBit : ∀ x : Nat, (x ||| 1) &&& 1 ≠ 0 := by
    intro x
    simp [Nat.and_distrib_right]
  refine ⟨by decide, rfl, rfl, ?_⟩
  intro c i b u st
  refine ⟨?_, rfl⟩
  show ((if u ≠ 0 then
          (if b ≠ 0 then
            (if i ≠ 0 then (st ||| TextStyle.COLOR) ||| TextStyle.ITALIC
             else st ||| TextStyle.COLOR) ||| TextStyle.BOLD
           else (if i ≠ 0 then (st ||| TextStyle.COLOR) ||| TextStyle.ITALIC
             else st ||| TextStyle.COLOR)) ||| TextStyle.UNDERLINE
        else
          (if b ≠ 0 then
            (if i ≠ 0 then (st ||| TextStyle.COLOR) ||| TextStyle.ITALIC
             else st ||| TextStyle.COLOR) ||| TextStyle.BOLD
           else (if i ≠ 0 then (st ||| TextStyle.COLOR) ||| TextStyle.ITALIC
             else st ||| TextStyle.COLOR))) &&& TextStyle.COLOR) ≠ 0
  show _ &&& 1 ≠ 0
  split <;> split <;> split <;>
    first
      | exact keyBit _ _ (keyBit _ _ (keyBit _ _ (baseBit st)))
      | exact keyBit _ _ (keyBit _ _ (baseBit st))
      | exact keyBit _ _ (baseBit st)
      | exact baseBit st

/-! ## Round-trip of the JSON wire layer -/

theorem mkData (s : String) : String.mk s.data = s := by
  cases s
  rfl

theorem digitChar_isDigit (n : Nat) : (digitChar n).isDigit = true := by
  unfold digitChar
  split_ifs <;> rfl

theorem digitVal_digitChar (n : Nat) (h : n < 10) : digitVal (digitChar n) = n := by
  interval_cases n <;> rfl

theorem digitChar_ne_zero (n : Nat) (h1 : 1 ≤ n) (h2 : n < 10) : digitChar n ≠ '0' := by
  interval_cases n <;> decide

theorem digit_ne (c : Char) (h : c.isDigit = true) (d : Char) (hd : d.isDigit = false) :
    c ≠ d := by
  intro he
  rw [he, hd] at h
  cases h

theorem digit_not_ws (c : Char) (h : c.isDigit = true) : isJsonWs c = false := by
  unfold isJsonWs
  rw [beq_eq_false_iff_ne.mpr (digit_ne c h ' ' rfl),
    beq_eq_false_iff_ne.mpr (digit_ne c h '\t' rfl),
    beq_eq_false_iff_ne.mpr (digit_ne c h '\n' rfl),
    beq_eq_false_iff_ne.mpr (digit_ne c h '\r' rfl)]
  rfl

theorem natToCharsFuel_irrel : ∀ f1 f2 n : Nat, n < f1 → n < f2 →
    natToCharsFuel f1 n = natToCharsFuel f2 n := by
  intro f1
  induction f1 with
  | zero => omega
  | succ f ih =>
    intro f2 n h1 h2
    cases f2 with
    | zero => omega
    | succ f2' =>
      unfold natToCharsFuel
      by_cases hn : n < 10
      · rw [if_pos hn, if_pos hn]
      · rw [if_neg hn, if_neg hn, ih f2' (n / 10) (by omega) (by omega)]

theorem natToChars_eq (n : Nat) :
    natToChars n =
      if n < 10 then [digitChar n] else natToChars (n / 10) ++ [digitChar (n % 10)] := by
  show natToCharsFuel (n + 1) n = _
  unfold natToCharsFuel
  by_cases hn : n < 10
  · rw [if_pos hn, if_pos hn]
  · rw [if_neg hn, if_neg hn,
      natToCharsFuel_irrel n (n / 10 + 1) (n / 10) (by omega) (by omega)]
    rfl

theorem natToChars_all_digits (n : Nat) : (natToChars n).all Char.isDigit = true := by
  induction n using Nat.strong_induction_on with
  | _ n ih =>
    rw [natToChars_eq]
    by_cases h : n < 10
    · rw [if_pos h]
      simp [digitChar_isDigit]
    · rw [if_neg h, List.all_append]
      simp [ih (n / 10) (by omega), digitChar_isDigit]

theorem natToChars_cons (n : Nat) :
    ∃ c t, natToChars n = c :: t ∧ c.isDigit = true ∧ (1 ≤ n → c ≠ '0') := by
  induction n using Nat.strong_induction_on with
  | _ n ih =>
    rw [natToChars_eq]
    by_cases h : n < 10
    · rw [if_pos h]
      exact ⟨digitChar n, [], rfl, digitChar_isDigit n,
        fun h1 => digitChar_ne_zero n h1 h⟩
    · rw [if_neg h]
      obtain ⟨c, t, hc, hd, hz⟩ := ih (n / 10) (by omega)
      refine ⟨c, t ++ [digitChar (n % 10)], ?_, hd, fun _ => hz (by omega)⟩
      rw [hc]
      rfl

theorem natToChars_foldl (n : Nat) : ∀ acc : Nat,
    (natToChars n).foldl (fun a c => a * 10 + digitVal c) acc =
      acc * 10 ^ (natToChars n).length + n := by
  induction n using Nat.strong_induction_on with
  | _ n ih =>
    intro acc
    rw [natToChars_eq]
    by_cases h : n < 10
    · rw [if_pos h]
      simp [digitVal_digitChar n h]
    · rw [if_neg h, List.foldl_append, ih (n / 10) (by omega) acc]
      simp only [List.foldl_cons, List.foldl_nil, List.length_append, List.length_cons,
        List.length_nil]
      rw [digitVal_digitChar (n % 10) (by omega), pow_succ]
      have hdm := Nat.div_add_mod n 10
      ring_nf
      omega

theorem digitsToNat_natToChars (n : Nat) : digitsToNat (natToChars n) = n := by
  unfold digitsToNat
  rw [natToChars_foldl n 0]
  simp

theorem takeDigits_append (ds rest : List Char) (hds : ds.all Char.isDigit = true)
    (hrest : headNumCont rest = false) :
    takeDigits (ds ++ rest) = (ds, rest) := by
  induction ds with
  | nil =>
    cases rest with
    | nil => rfl
    | cons c t =>
      have h' : (c.isDigit || c == '.' || c == 'e' || c == 'E') = false := hrest
      simp only [Bool.or_eq_false_iff] at h'
      show takeDigits (c :: t) = ([], c :: t)
      simp only [takeDigits]
      rw [h'.1.1.1]
      rfl
  | cons d ds ih =>
    rw [List.all_cons, Bool.and_eq_true] at hds
    obtain ⟨hd, hds'⟩ := hds
    show takeDigits (d :: (ds ++ rest)) = (d :: ds, rest)
    simp only [takeDigits]
    rw [hd, ih hds']
    rfl

theorem parseNatToken_ser (m : Nat) (rest : List Char) (h : headNumCont rest = false) :
    parseNatToken (natToChars m ++ rest) = .ok (m, rest) := by
  obtain ⟨c, t, hct, hdig, hz⟩ := natToChars_cons m
  by_cases hm : m = 0
  · subst hm
    show parseNatToken ('0' :: rest) = .ok (0, rest)
    simp only [parseNatToken, if_pos rfl, h, Bool.false_eq_true, if_false]
    simp
  · have hz' := hz (by omega)
    rw [hct]
    show parseNatToken (c :: (t ++ rest)) = .ok (m, rest)
    simp only [parseNatToken]
    rw [if_neg hz', if_pos hdig]
    have hall : (c :: t).all Char.isDigit = true := by
      rw [← hct]
      exact natToChars_all_digits m
    have htake : takeDigits (c :: (t ++ rest)) = (c :: t, rest) := by
      have h2 := takeDigits_append (c :: t) rest hall h
      simpa using h2
    rw [htake]
    simp only [h, Bool.false_eq_true, if_false]
    rw [← hct, digitsToNat_natToChars]

theorem parseIntToken_ser (n : Int) (rest : List Char) (h : headNumCont rest = false) :
    parseIntToken (intToChars n ++ rest) = .ok (n, rest) := by
  unfold intToChars
  by_cases hn : n < 0
  · rw [if_pos hn]
    show parseIntToken ('-' :: (natToChars n.natAbs ++ rest)) = .ok (n, rest)
    simp only [parseIntToken, if_pos rfl]
    rw [parseNatToken_ser n.natAbs rest h]
    have hv : -(n.natAbs : Int) = n := by omega
    show Except.ok (-(n.natAbs : Int), rest) = Except.ok (n, rest)
    rw [hv]
  · rw [if_neg hn]
    obtain ⟨c, t, hct, hdig, _⟩ := natToChars_cons n.toNat
    rw [hct]
    show parseIntToken (c :: (t ++ rest)) = .ok (n, rest)
    simp only [parseIntToken]
    rw [if_neg (digit_ne c hdig '-' rfl), ← List.cons_append, ← hct,
      parseNatToken_ser n.toNat rest h]
    have hv : (n.toNat : Int) = n := by omega
    show Except.ok ((n.toNat : Int), rest) = Except.ok (n, rest)
    rw [hv]

theorem hexDigitVal_hexDigitChar (d : Nat) (h : d < 16) :
    hexDigitVal (hexDigitChar d) = some d := by
  interval_cases d <;> rfl

theorem escChar_len_pos (c : Char) : 1 ≤ (escChar c).length := by
  unfold escChar
  split_ifs <;> simp [hex4]

theorem serStrBody_len_pos (l : List Char) : 1 ≤ (serStrBody l).length := by
  cases l with
  | nil => exact Nat.le_refl 1
  | cons c cs =>
    show 1 ≤ (escChar c ++ serStrBody cs).length
    rw [List.length_append]
    have := escChar_len_pos c
    omega

theorem parseStringBody_ser : ∀ fuel (l rest : List Char),
    (serStrBody l).length ≤ fuel →
    parseStringBody fuel (serStrBody l ++ rest) = .ok (l, rest) := by
  intro fuel
  induction fuel with
  | zero =>
    intro l rest hlen
    have := serStrBody_len_pos l
    omega
  | succ fuel ih =>
    intro l rest hlen
    cases l with
    | nil =>
      show parseStringBody (fuel + 1) ('"' :: rest) = .ok ([], rest)
      rfl
    | cons c cs =>
      show parseStringBody (fuel + 1) ((escChar c ++ serStrBody cs) ++ rest) =
        .ok (c :: cs, rest)
      rw [List.append_assoc]
      have hlen' : (escChar c ++ serStrBody cs).length ≤ fuel + 1 := hlen
      rw [List.length_append] at hlen'
      unfold escChar
      unfold escChar at hlen'
      by_cases h1 : c = '"'
      · rw [if_pos h1]
        rw [if_pos h1] at hlen'
        subst h1
        have hihlen : (serStrBody cs).length ≤ fuel := by
          simp at hlen'
          omega
        have h0 : parseStringBody (fuel + 1) ('\\' :: '"' :: (serStrBody cs ++ rest)) =
            match parseStringBody fuel (serStrBody cs ++ rest) with
            | .ok (a, b) => .ok ('"' :: a, b)
            | .error e => .error e := rfl
        show parseStringBody (fuel + 1) ('\\' :: '"' :: (serStrBody cs ++ rest)) = _
        rw [h0, ih cs rest hihlen]
      · rw [if_neg h1]
        rw [if_neg h1] at hlen'
        by_cases h2 : c = '\\'
        · rw [if_pos h2]
          rw [if_pos h2] at hlen'
          subst h2
          have hihlen : (serStrBody cs).length ≤ fuel := by
            simp at hlen'
            omega
          have h0 : parseStringBody (fuel + 1) ('\\' :: '\\' :: (serStrBody cs ++ rest)) =
              match parseStringBody fuel (serStrBody cs ++ rest) with
              | .ok (a, b) => .ok ('\\' :: a, b)
              | .error e => .error e := rfl
          show parseStringBody (fuel + 1) ('\\' :: '\\' :: (serStrBody cs ++ rest)) = _
          rw [h0, ih cs rest hihlen]
        · rw [if_neg h2]
          rw [if_neg h2] at hlen'
          by_cases h3 : c.toNat < 0x20
          · rw [if_pos h3]
            rw [if_pos h3] at hlen'
            have hihlen : (serStrBody cs).length ≤ fuel := by
              simp [hex4] at hlen'
              omega
            show parseStringBody (fuel + 1)
                ('\\' :: 'u' :: (hex4 c.toNat ++ (serStrBody cs ++ rest))) = _
            rw [show ('\\' : Char) :: 'u' :: (hex4 c.toNat ++ (serStrBody cs ++ rest)) =
              '\\' :: 'u' :: hexDigitChar (c.toNat / 4096 % 16) ::
                hexDigitChar (c.toNat / 256 % 16) :: hexDigitChar (c.toNat / 16 % 16) ::
                hexDigitChar (c.toNat % 16) :: (serStrBody cs ++ rest) from rfl]
            have h0 : parseStringBody (fuel + 1)
                ('\\' :: 'u' :: hexDigitChar (c.toNat / 4096 % 16) ::
                  hexDigitChar (c.toNat / 256 % 16) :: hexDigitChar (c.toNat / 16 % 16) ::
                  hexDigitChar (c.toNat % 16) :: (serStrBody cs ++ rest)) =
                (match hexDigitVal (hexDigitChar (c.toNat / 4096 % 16)),
                    hexDigitVal (hexDigitChar (c.toNat / 256 % 16)),
                    hexDigitVal (hexDigitChar (c.toNat / 16 % 16)),
                    hexDigitVal (hexDigitChar (c.toNat % 16)) with
                | some a, some b, some g, some d =>
                  let n := ((a * 16 + b) * 16 + g) * 16 + d
                  if n < 0xD800 ∨ 0xE000 ≤ n then
                    match parseStringBody fuel (serStrBody cs ++ rest) with
                    | .ok (p, rem) => .ok (Char.ofNat n :: p, rem)
                    | .error err => .error err
                  else if n < 0xDC00 then
                    match serStrBody cs ++ rest with
                    | b1 :: b2 :: d1 :: d2 :: d3 :: d4 :: rest4 =>
                      if b1 = '\\' ∧ b2 = 'u' then
                        match hexDigitVal d1, hexDigitVal d2, hexDigitVal d3,
                            hexDigitVal d4 with
                        | some a2, some b2v, some g2, some d2v =>
                          let m := ((a2 * 16 + b2v) * 16 + g2) * 16 + d2v
                          if 0xDC00 ≤ m ∧ m < 0xE000 then
                            match parseStringBody fuel rest4 with
                            | .ok (p, rem) =>
                              .ok (Char.ofNat
                                (0x10000 + (n - 0xD800) * 0x400 + (m - 0xDC00)) :: p, rem)
                            | .error err => .error err
                          else .error .jsonParse
                        | _, _, _, _ => .error .jsonParse
                      else .error .jsonParse
                    | _ => .error .jsonParse
                  else .error .jsonParse
                | _, _, _, _ => .error .jsonParse) := rfl
            rw [h0]
            rw [hexDigitVal_hexDigitChar (c.toNat / 4096 % 16) (by omega),
              hexDigitVal_hexDigitChar (c.toNat / 256 % 16) (by omega),
              hexDigitVal_hexDigitChar (c.toNat / 16 % 16) (by omega),
              hexDigitVal_hexDigitChar (c.toNat % 16) (by omega)]
            have hval : ((c.toNat / 4096 % 16 * 16 + c.toNat / 256 % 16) * 16 +
                c.toNat / 16 % 16) * 16 + c.toNat % 16 = c.toNat := by
              omega
            show (if ((c.toNat / 4096 % 16 * 16 + c.toNat / 256 % 16) * 16 +
                c.toNat / 16 % 16) * 16 + c.toNat % 16 < 0xD800 ∨
                0xE000 ≤ ((c.toNat / 4096 % 16 * 16 + c.toNat / 256 % 16) * 16 +
                c.toNat / 16 % 16) * 16 + c.toNat % 16 then
              match parseStringBody fuel (serStrBody cs ++ rest) with
              | Except.ok (p, rem) =>
                Except.ok (Char.ofNat (((c.toNat / 4096 % 16 * 16 + c.toNat / 256 % 16) * 16 +
                  c.toNat / 16 % 16) * 16 + c.toNat % 16) :: p, rem)
              | Except.error err => Except.error err
            else if ((c.toNat / 4096 % 16 * 16 + c.toNat / 256 % 16) * 16 +
                c.toNat / 16 % 16) * 16 + c.toNat % 16 < 0xDC00 then
              match serStrBody cs ++ rest with
              | b1 :: b2 :: d1 :: d2 :: d3 :: d4 :: rest4 =>
                if b1 = '\\' ∧ b2 = 'u' then
                  match hexDigitVal d1, hexDigitVal d2, hexDigitVal d3, hexDigitVal d4 with
                  | some a2, some b2v, some g2, some d2v =>
                    let m := ((a2 * 16 + b2v) * 16 + g2) * 16 + d2v
                    if 0xDC00 ≤ m ∧ m < 0xE000 then
                      match parseStringBody fuel rest4 with
                      | Except.ok (p, rem) =>
                        Except.ok (Char.ofNat
                          (0x10000 + (((c.toNat / 4096 % 16 * 16 + c.toNat / 256 % 16) * 16 +
                            c.toNat / 16 % 16) * 16 + c.toNat % 16 - 0xD800) * 0x400 +
                            (m - 0xDC00)) :: p, rem)
                      | Except.error err => Except.error err
                    else Except.error JErr.jsonParse
                  | _, _, _, _ => Except.error JErr.jsonParse
                else Except.error JErr.jsonParse
              | _ => Except.error JErr.jsonParse
            else Except.error JErr.jsonParse) = Except.ok (c :: cs, rest)
            rw [hval]
            rw [if_pos (Or.inl (by omega)), ih cs rest hihlen, Char.ofNat_toNat]
          · rw [if_neg h3]
            rw [if_neg h3] at hlen'
            have hihlen : (serStrBody cs).length ≤ fuel := by
              simp at hlen'
              omega
            show parseStringBody (fuel + 1) (c :: (serStrBody cs ++ rest)) = _
            have h0 : parseStringBody (fuel + 1) (c :: (serStrBody cs ++ rest)) =
                if c = '"' then .ok ([], serStrBody cs ++ rest)
                else if c = '\\' then
                  match serStrBody cs ++ rest with
                  | [] => .error .jsonParse
                  | e :: rest2 =>
                    if e = 'u' then
                      match rest2 with
                      | c1 :: c2 :: c3 :: c4 :: rest3 =>
                        match hexDigitVal c1, hexDigitVal c2, hexDigitVal c3,
                            hexDigitVal c4 with
                        | some a, some b, some g, some d =>
                          let n := ((a * 16 + b) * 16 + g) * 16 + d
                          if n < 0xD800 ∨ 0xE000 ≤ n then
                            match parseStringBody fuel rest3 with
                            | .ok (p, rem) => .ok (Char.ofNat n :: p, rem)
                            | .error err => .error err
                          else if n < 0xDC00 then
                            match rest3 with
                            | b1 :: b2 :: d1 :: d2 :: d3 :: d4 :: rest4 =>
                              if b1 = '\\' ∧ b2 = 'u' then
                                match hexDigitVal d1, hexDigitVal d2, hexDigitVal d3,
                                    hexDigitVal d4 with
                                | some a2, some b2v, some g2, some d2v =>
                                  let m := ((a2 * 16 + b2v) * 16 + g2) * 16 + d2v
                                  if 0xDC00 ≤ m ∧ m < 0xE000 then
                                    match parseStringBody fuel rest4 with
                                    | .ok (p, rem) =>
                                      .ok (Char.ofNat
                                        (0x10000 + (n - 0xD800) * 0x400 +
                                          (m - 0xDC00)) :: p, rem)
                                    | .error err => .error err
                                  else .error .jsonParse
                                | _, _, _, _ => .error .jsonParse
                              else .error .jsonParse
                            | _ => .error .jsonParse
                          else .error .jsonParse
                        | _, _, _, _ => .error .jsonParse
                      | _ => .error .jsonParse
                    else
                      match escMap e with
                      | some ec =>
                        match parseStringBody fuel rest2 with
                        | .ok (p, rem) => .ok (ec :: p, rem)
                        | .error err => .error err
                      | none => .error .jsonParse
                else if c.toNat < 0x20 then .error .jsonParse
                else
                  match parseStringBody fuel (serStrBody cs ++ rest) with
                  | .ok (p, rem) => .ok (c :: p, rem)
                  | .error err => .error err := rfl
            rw [h0, if_neg h1, if_neg h2, if_neg h3, ih cs rest hihlen]

theorem headNumCont_append_head (c : Char) (l : List Char) (h : c.isDigit = false)
    (h2 : c ≠ '.') (h3 : c ≠ 'e') (h4 : c ≠ 'E') : headNumCont (c :: l) = false := by
  show (c.isDigit || c == '.' || c == 'e' || c == 'E') = false
  rw [h, beq_eq_false_iff_ne.mpr h2, beq_eq_false_iff_ne.mpr h3,
    beq_eq_false_iff_ne.mpr h4]
  rfl

theorem skipWs_cons_nws (c : Char) (l : List Char) (h : isJsonWs c = false) :
    skipWs (c :: l) = c :: l := by
  unfold skipWs
  rw [h]
  rfl

theorem parseVal_ws (fuel : Nat) (cs : List Char) :
    parseVal fuel (' ' :: cs) = parseVal fuel cs := by
  cases fuel <;> rfl

theorem parseElems_ws (fuel : Nat) (cs : List Char) :
    parseElems fuel (' ' :: cs) = parseElems fuel cs := by
  cases fuel with
  | zero => rfl
  | succ f =>
    unfold parseElems
    rw [parseVal_ws]

theorem parseMembers_ws (fuel : Nat) (cs : List Char) :
    parseMembers fuel (' ' :: cs) = parseMembers fuel cs := by
  cases fuel <;> rfl

/-- Head shape of a serialized value: never whitespace and never a closing
token. -/
theorem serVal_head (v : JValue) :
    ∃ c t, serVal v = c :: t ∧ isJsonWs c = false ∧ c ≠ ']' ∧ c ≠ '}' := by
  cases v with
  | null => exact ⟨'n', _, rfl, rfl, by decide, by decide⟩
  | bool b => cases b
              · exact ⟨'f', _, rfl, rfl, by decide, by decide⟩
              · exact ⟨'t', _, rfl, rfl, by decide, by decide⟩
  | int n =>
    show ∃ c t, intToChars n = c :: t ∧ _
    unfold intToChars
    by_cases hn : n < 0
    · rw [if_pos hn]
      exact ⟨'-', _, rfl, rfl, by decide, by decide⟩
    · rw [if_neg hn]
      obtain ⟨c, t, hct, hd, _⟩ := natToChars_cons n.toNat
      exact ⟨c, t, hct, digit_not_ws c hd, digit_ne c hd ']' rfl, digit_ne c hd '}' rfl⟩
  | str s => exact ⟨'"', _, rfl, rfl, by decide, by decide⟩
  | arr xs => exact ⟨'[', _, rfl, rfl, by decide, by decide⟩
  | obj kvs => exact ⟨'{', _, rfl, rfl, by decide, by decide⟩

/-- Head shape of serialized non-empty array elements. -/
theorem serElems_shape (x : JValue) (xs : List JValue) :
    ∃ c t, serElems (x :: xs) = c :: t ∧ isJsonWs c = false ∧ c ≠ ']' := by
  obtain ⟨c, t, hct, hws, hne, _⟩ := serVal_head x
  cases xs with
  | nil =>
    refine ⟨c, t ++ [']'], ?_, hws, hne⟩
    show serVal x ++ [']'] = _
    rw [hct]
    rfl
  | cons y ys =>
    refine ⟨c, t ++ ',' :: ' ' :: serElems (y :: ys), ?_, hws, hne⟩
    show serVal x ++ ',' :: ' ' :: serElems (y :: ys) = _
    rw [hct]
    rfl

/-- Serialized non-empty object members start with the quote of the first
key. -/
theorem serMembers_shape (k : String) (v : JValue) (kvs : List (String × JValue)) :
    ∃ t, serMembers ((k, v) :: kvs) = '"' :: t ∧ t = serStrBody k.data ++
      (':' :: ' ' :: (serVal v ++
        (match kvs with
         | [] => ['}']
         | (k2, v2) :: t2 => ',' :: ' ' :: serMembers ((k2, v2) :: t2)))) := by
  cases kvs with
  | nil =>
    refine ⟨_, ?_, rfl⟩
    show serStr k ++ ':' :: ' ' :: (serVal v ++ ['}']) = _
    rfl
  | cons p t2 =>
    obtain ⟨k2, v2⟩ := p
    refine ⟨_, ?_, rfl⟩
    show serStr k ++ ':' :: ' ' :: (serVal v ++ ',' :: ' ' :: serMembers ((k2, v2) :: t2)) = _
    rfl

theorem serVal_len_pos (v : JValue) : 1 ≤ (serVal v).length := by
  obtain ⟨c, t, hct, -, -, -⟩ := serVal_head v
  rw [hct]
  simp

theorem serElems_len_nil (x : JValue) :
    (serElems [x]).length = (serVal x).length + 1 := by
  show (serVal x ++ [']']).length = _
  rw [List.length_append]
  rfl

theorem serElems_len_cons (x y : JValue) (t : List JValue) :
    (serElems (x :: y :: t)).length =
      (serVal x).length + 2 + (serElems (y :: t)).length := by
  show (serVal x ++ ',' :: ' ' :: serElems (y :: t)).length = _
  rw [List.length_append]
  simp only [List.length_cons]
  omega

theorem serStr_len (k : String) : (serStr k).length = 1 + (serStrBody k.data).length := by
  show ('"' :: serStrBody k.data).length = _
  simp only [List.length_cons]
  omega

theorem serMembers_len_nil (k : String) (v : JValue) :
    (serMembers [(k, v)]).length = (serStr k).length + 2 + (serVal v).length + 1 := by
  show (serStr k ++ ':' :: ' ' :: (serVal v ++ ['}'])).length = _
  simp [List.length_append]
  omega

theorem serMembers_len_cons (k : String) (v : JValue) (k2 : String) (v2 : JValue)
    (t2 : List (String × JValue)) :
    (serMembers ((k, v) :: (k2, v2) :: t2)).length =
      (serStr k).length + 2 + (serVal v).length + 2 +
        (serMembers ((k2, v2) :: t2)).length := by
  show (serStr k ++ ':' :: ' ' :: (serVal v ++ ',' :: ' ' :: serMembers ((k2, v2) :: t2))).length = _
  simp [List.length_append]
  omega

/-- Unfolding equation for the element-tail parser, valid for symbolic fuel. -/
theorem parseElemsTail_unfold (fuel : Nat) (v : JValue) (cs : List Char) :
    parseElemsTail fuel v cs =
      match skipWs cs with
      | [] => .error .jsonParse
      | c :: rest2 =>
        if c = ',' then
          match fuel with
          | 0 => .error .jsonParse
          | g + 1 =>
            match parseElems g rest2 with
            | .ok (xs, rem) => .ok (v :: xs, rem)
            | .error e => .error e
        else if c = ']' then .ok ([v], rest2)
        else .error .jsonParse := by
  cases fuel <;> rfl

/-- Unfolding equation for the member-after-key parser, valid for symbolic
fuel. -/
theorem parseMemberAfterKey_unfold (fuel : Nat) (k : String) (cs : List Char) :
    parseMemberAfterKey fuel k cs =
      match skipWs cs with
      | [] => .error .jsonParse
      | c2 :: rest3 =>
        if c2 = ':' then
          match fuel with
          | 0 => .error .jsonParse
          | g + 1 =>
            match parseVal g rest3 with
            | .error e => .error e
            | .ok (v, rest4) => parseMemberTail g k v rest4
        else .error .jsonParse := by
  cases fuel <;> rfl

/-- Unfolding equation for the member-tail parser, valid for symbolic fuel. -/
theorem parseMemberTail_unfold (fuel : Nat) (k : String) (v : JValue)
    (cs : List Char) :
    parseMemberTail fuel k v cs =
      match skipWs cs with
      | [] => .error .jsonParse
      | c3 :: rest5 =>
        if c3 = ',' then
          match fuel with
          | 0 => .error .jsonParse
          | g + 1 =>
            match parseMembers g rest5 with
            | .ok (kvs, rem) => .ok ((k, v) :: kvs, rem)
            | .error e => .error e
        else if c3 = '}' then .ok ([(k, v)], rest5)
        else .error .jsonParse := by
  cases fuel <;> rfl

set_option maxHeartbeats 1600000 in
/-- The fuelled JSON parser undoes the serializer: with fuel at least twice
the serialized length, parsing a serialized value (or element list, or member
list) consumes exactly the serialized text and returns the original value. -/
theorem parse_ser (fuel : Nat) :
    (∀ v rest, 2 * (serVal v).length ≤ fuel → headNumCont rest = false →
      parseVal fuel (serVal v ++ rest) = .ok (v, rest)) ∧
    (∀ x xs rest, 2 * (serElems (x :: xs)).length ≤ fuel →
      parseElems fuel (serElems (x :: xs) ++ rest) = .ok (x :: xs, rest)) ∧
    (∀ k v kvs rest, 2 * (serMembers ((k, v) :: kvs)).length ≤ fuel →
      parseMembers fuel (serMembers ((k, v) :: kvs) ++ rest) = .ok ((k, v) :: kvs, rest)) := by
  induction fuel using Nat.strong_induction_on with
  | _ fuel ih =>
  refine ⟨?_, ?_, ?_⟩
  · intro v rest hlen hns
    have hpos := serVal_len_pos v
    cases fuel with
    | zero => omega
    | succ f =>
    cases v with
    | null =>
      have h0 : parseVal (f + 1) (serVal .null ++ rest) =
          parseValHead f 'n' ('u' :: 'l' :: 'l' :: rest) := rfl
      rw [h0]
      simp [parseValHead]
    | bool b =>
      cases b with
      | false =>
        have h0 : parseVal (f + 1) (serVal (.bool false) ++ rest) =
            parseValHead f 'f' ('a' :: 'l' :: 's' :: 'e' :: rest) := rfl
        rw [h0]
        simp [parseValHead]
      | true =>
        have h0 : parseVal (f + 1) (serVal (.bool true) ++ rest) =
            parseValHead f 't' ('r' :: 'u' :: 'e' :: rest) := rfl
        rw [h0]
        simp [parseValHead]
    | int n =>
      show parseVal (f + 1) (intToChars n ++ rest) = .ok (.int n, rest)
      by_cases hn : n < 0
      · have hic : intToChars n = '-' :: natToChars n.natAbs := by
          unfold intToChars
          rw [if_pos hn]
        rw [hic, List.cons_append]
        have h0 : parseVal (f + 1) ('-' :: (natToChars n.natAbs ++ rest)) =
            parseValHead f '-' (natToChars n.natAbs ++ rest) := rfl
        rw [h0]
        rw [show parseValHead f '-' (natToChars n.natAbs ++ rest) =
            (match parseIntToken ('-' :: (natToChars n.natAbs ++ rest)) with
            | .ok (m, rem) => .ok (.int m, rem)
            | .error e => .error e) from by
          unfold parseValHead
          rfl]
        rw [show ('-' :: (natToChars n.natAbs ++ rest)) = intToChars n ++ rest from by
          rw [hic, List.cons_append],
          parseIntToken_ser n rest hns]
      · have hic : intToChars n = natToChars n.toNat := by
          unfold intToChars
          rw [if_neg hn]
        obtain ⟨c, t, hct, hd, -⟩ := natToChars_cons n.toNat
        rw [hic, hct, List.cons_append]
        have h1 : parseVal (f + 1) (c :: (t ++ rest)) = parseValHead f c (t ++ rest) := by
          show (match skipWs (c :: (t ++ rest)) with
            | [] => (Except.error JErr.jsonParse : Except JErr (JValue × List Char))
            | c' :: rest' => parseValHead f c' rest') = _
          rw [skipWs_cons_nws c _ (digit_not_ws c hd)]
        rw [h1]
        unfold parseValHead
        rw [if_neg (digit_ne c hd 'n' rfl), if_neg (digit_ne c hd 't' rfl),
          if_neg (digit_ne c hd 'f' rfl), if_neg (digit_ne c hd '"' rfl),
          if_neg (digit_ne c hd '[' rfl), if_neg (digit_ne c hd '{' rfl)]
        rw [show c :: (t ++ rest) = intToChars n ++ rest from by
          rw [hic, hct, List.cons_append],
          parseIntToken_ser n rest hns]
    | str s =>
      show parseVal (f + 1) (('"' :: serStrBody s.data) ++ rest) = .ok (.str s, rest)
      rw [List.cons_append]
      have h0 : parseVal (f + 1) ('"' :: (serStrBody s.data ++ rest)) =
          parseValHead f '"' (serStrBody s.data ++ rest) := rfl
      rw [h0]
      rw [show parseValHead f '"' (serStrBody s.data ++ rest) =
          (match parseStringBody ((serStrBody s.data ++ rest).length + 1)
              (serStrBody s.data ++ rest) with
          | .ok (cs2, rem) => .ok (.str (String.mk cs2), rem)
          | .error e => .error e) from by
        unfold parseValHead
        rfl]
      rw [parseStringBody_ser _ s.data rest (by rw [List.length_append]; omega)]
    | arr xs =>
      cases xs with
      | nil =>
        have h0 : parseVal (f + 1) (serVal (.arr []) ++ rest) =
            parseValHead f '[' (']' :: rest) := rfl
        rw [h0]
        simp [parseValHead, skipWs, isJsonWs]
      | cons x xs' =>
        show parseVal (f + 1) (('[' :: serElems (x :: xs')) ++ rest) =
          .ok (.arr (x :: xs'), rest)
        have hep := serVal_len_pos x
        have hlenv : (serVal (.arr (x :: xs'))).length = 1 + (serElems (x :: xs')).length := by
          show ('[' :: serElems (x :: xs')).length = _
          simp only [List.length_cons]
          omega
        rw [List.cons_append]
        have h0 : parseVal (f + 1) ('[' :: (serElems (x :: xs') ++ rest)) =
            parseValHead f '[' (serElems (x :: xs') ++ rest) := rfl
        rw [h0]
        unfold parseValHead
        rw [if_neg (by decide : ¬('[' : Char) = 'n'), if_neg (by decide : ¬('[' : Char) = 't'),
          if_neg (by decide : ¬('[' : Char) = 'f'), if_neg (by decide : ¬('[' : Char) = '"'),
          if_pos rfl]
        obtain ⟨c0, t0, hse, hws0, hne0⟩ := serElems_shape x xs'
        rw [hse, List.cons_append, skipWs_cons_nws c0 _ hws0]
        have he1 : 1 ≤ (serElems (x :: xs')).length := by
          rw [hse]
          simp
        cases f with
        | zero => omega
        | succ g =>
        show (if c0 = ']' then Except.ok (JValue.arr [], t0 ++ rest)
          else
            match parseElems g (c0 :: (t0 ++ rest)) with
            | .ok (xs2, rem) => .ok (.arr xs2, rem)
            | .error e => .error e) = Except.ok (JValue.arr (x :: xs'), rest)
        rw [if_neg hne0]
        rw [show (c0 :: (t0 ++ rest)) = serElems (x :: xs') ++ rest from by
          rw [hse, List.cons_append]]
        rw [(ih g (by omega)).2.1 x xs' rest (by rw [hlenv] at hlen; omega)]
    | obj kvs =>
      cases kvs with
      | nil =>
        have h0 : parseVal (f + 1) (serVal (.obj []) ++ rest) =
            parseValHead f '{' ('}' :: rest) := rfl
        rw [h0]
        simp [parseValHead, skipWs, isJsonWs]
      | cons p kvs' =>
        obtain ⟨k, v2⟩ := p
        show parseVal (f + 1) (('{' :: serMembers ((k, v2) :: kvs')) ++ rest) =
          .ok (.obj ((k, v2) :: kvs'), rest)
        have hlenv : (serVal (.obj ((k, v2) :: kvs'))).length =
            1 + (serMembers ((k, v2) :: kvs')).length := by
          show ('{' :: serMembers ((k, v2) :: kvs')).length = _
          simp only [List.length_cons]
          omega
        rw [List.cons_append]
        have h0 : parseVal (f + 1) ('{' :: (serMembers ((k, v2) :: kvs') ++ rest)) =
            parseValHead f '{' (serMembers ((k, v2) :: kvs') ++ rest) := rfl
        rw [h0]
        unfold parseValHead
        rw [if_neg (by decide : ¬('{' : Char) = 'n'), if_neg (by decide : ¬('{' : Char) = 't'),
          if_neg (by decide : ¬('{' : Char) = 'f'), if_neg (by decide : ¬('{' : Char) = '"'),
          if_neg (by decide : ¬('{' : Char) = '['), if_pos rfl]
        obtain ⟨tS, hsm, -⟩ := serMembers_shape k v2 kvs'
        rw [hsm, List.cons_append, skipWs_cons_nws '"' _ rfl]
        have he1 : 1 ≤ (serMembers ((k, v2) :: kvs')).length := by
          rw [hsm]
          simp
        cases f with
        | zero => omega
        | succ g =>
        show (if ('"' : Char) = '}' then Except.ok (JValue.obj [], tS ++ rest)
          else
            match parseMembers g ('"' :: (tS ++ rest)) with
            | .ok (kvs2, rem) => .ok (.obj kvs2, rem)
            | .error e => .error e) = Except.ok (JValue.obj ((k, v2) :: kvs'), rest)
        rw [if_neg (by decide : ¬('"' : Char) = '}')]
        rw [show ('"' :: (tS ++ rest)) = serMembers ((k, v2) :: kvs') ++ rest from by
          rw [hsm, List.cons_append]]
        rw [(ih g (by omega)).2.2 k v2 kvs' rest (by rw [hlenv] at hlen; omega)]
  · intro x xs rest hlen
    have hx := serVal_len_pos x
    cases fuel with
    | zero =>
      cases xs with
      | nil => rw [serElems_len_nil] at hlen; omega
      | cons y t => rw [serElems_len_cons] at hlen; omega
    | succ e =>
    have hA : parseElems (e + 1) (serElems (x :: xs) ++ rest) =
        (match parseVal e (serElems (x :: xs) ++ rest) with
        | .error e' => .error e'
        | .ok (v, r) => parseElemsTail e v r) := rfl
    rw [hA]
    cases xs with
    | nil =>
      rw [serElems_len_nil] at hlen
      rw [show serElems [x] ++ rest = serVal x ++ (']' :: rest) from by
        show (serVal x ++ [']']) ++ rest = _
        rw [List.append_assoc]
        rfl]
      rw [(ih e (by omega)).1 x (']' :: rest) (by omega) rfl]
      show parseElemsTail e x (']' :: rest) = Except.ok ([x], rest)
      rw [parseElemsTail_unfold]
      rfl
    | cons y t =>
      have hyp := serVal_len_pos y
      have he1 : 1 ≤ (serElems (y :: t)).length := by
        obtain ⟨c1, t1, hse1, -, -⟩ := serElems_shape y t
        rw [hse1]
        simp
      rw [serElems_len_cons] at hlen
      rw [show serElems (x :: y :: t) ++ rest =
          serVal x ++ (',' :: ' ' :: (serElems (y :: t) ++ rest)) from by
        show (serVal x ++ ',' :: ' ' :: serElems (y :: t)) ++ rest = _
        rw [List.append_assoc]
        rfl]
      rw [(ih e (by omega)).1 x (',' :: ' ' :: (serElems (y :: t) ++ rest)) (by omega) rfl]
      show parseElemsTail e x (',' :: ' ' :: (serElems (y :: t) ++ rest)) =
        Except.ok (x :: y :: t, rest)
      cases e with
      | zero => omega
      | succ g =>
      have hB : parseElemsTail (g + 1) x (',' :: ' ' :: (serElems (y :: t) ++ rest)) =
          (match parseElems g (' ' :: (serElems (y :: t) ++ rest)) with
          | .ok (xs', rem) => .ok (x :: xs', rem)
          | .error e' => .error e') := rfl
      rw [hB, parseElems_ws, (ih g (by omega)).2.1 y t rest (by omega)]
  · intro k v kvs rest hlen
    have hv := serVal_len_pos v
    have hkb := serStrBody_len_pos k.data
    cases fuel with
    | zero =>
      cases kvs with
      | nil => rw [serMembers_len_nil] at hlen; omega
      | cons p t2 =>
        obtain ⟨k2, v2⟩ := p
        rw [serMembers_len_cons] at hlen
        omega
    | succ m =>
    cases kvs with
    | nil =>
      rw [serMembers_len_nil, serStr_len] at hlen
      rw [show serMembers [(k, v)] ++ rest =
          '"' :: (serStrBody k.data ++ ((':' :: ' ' :: (serVal v ++ ['}'])) ++ rest)) from by
        show '"' :: ((serStrBody k.data ++ (':' :: ' ' :: (serVal v ++ ['}']))) ++ rest) = _
        rw [List.append_assoc]]
      have hC : parseMembers (m + 1)
          ('"' :: (serStrBody k.data ++ ((':' :: ' ' :: (serVal v ++ ['}'])) ++ rest))) =
          (match parseStringBody
              ((serStrBody k.data ++
                ((':' :: ' ' :: (serVal v ++ ['}'])) ++ rest)).length + 1)
              (serStrBody k.data ++ ((':' :: ' ' :: (serVal v ++ ['}'])) ++ rest)) with
          | .error e => .error e
          | .ok (kcs, rest2) => parseMemberAfterKey m (String.mk kcs) rest2) := rfl
      rw [hC]
      rw [parseStringBody_ser _ k.data _ (by rw [List.length_append]; omega)]
      show parseMemberAfterKey m k (':' :: ' ' :: ((serVal v ++ ['}']) ++ rest)) =
        .ok ([(k, v)], rest)
      cases m with
      | zero => omega
      | succ g =>
      have hD : parseMemberAfterKey (g + 1) k (':' :: ' ' :: ((serVal v ++ ['}']) ++ rest)) =
          (match parseVal g (' ' :: ((serVal v ++ ['}']) ++ rest)) with
          | .error e => .error e
          | .ok (v', rest4) => parseMemberTail g k v' rest4) := rfl
      rw [hD, parseVal_ws]
      rw [show (serVal v ++ ['}']) ++ rest = serVal v ++ ('}' :: rest) from by
        rw [List.append_assoc]
        rfl]
      rw [(ih g (by omega)).1 v ('}' :: rest) (by omega) rfl]
      show parseMemberTail g k v ('}' :: rest) = Except.ok ([(k, v)], rest)
      rw [parseMemberTail_unfold]
      rfl
    | cons p t2 =>
      obtain ⟨k2, v2⟩ := p
      rw [serMembers_len_cons, serStr_len] at hlen
      have hm1 : 1 ≤ (serMembers ((k2, v2) :: t2)).length := by
        obtain ⟨tS2, hsm2, -⟩ := serMembers_shape k2 v2 t2
        rw [hsm2]
        simp
      rw [show serMembers ((k, v) :: (k2, v2) :: t2) ++ rest =
          '"' :: (serStrBody k.data ++
            ((':' :: ' ' :: (serVal v ++ ',' :: ' ' :: serMembers ((k2, v2) :: t2))) ++
              rest)) from by
        show '"' :: ((serStrBody k.data ++
            (':' :: ' ' :: (serVal v ++ ',' :: ' ' :: serMembers ((k2, v2) :: t2)))) ++
              rest) = _
        rw [List.append_assoc]]
      have hC : parseMembers (m + 1)
          ('"' :: (serStrBody k.data ++
            ((':' :: ' ' :: (serVal v ++ ',' :: ' ' :: serMembers ((k2, v2) :: t2))) ++
              rest))) =
          (match parseStringBody
              ((serStrBody k.data ++
                ((':' :: ' ' :: (serVal v ++ ',' :: ' ' :: serMembers ((k2, v2) :: t2))) ++
                  rest)).length + 1)
              (serStrBody k.data ++
                ((':' :: ' ' :: (serVal v ++ ',' :: ' ' :: serMembers ((k2, v2) :: t2))) ++
                  rest)) with
          | .error e => .error e
          | .ok (kcs, rest2) => parseMemberAfterKey m (String.mk kcs) rest2) := rfl
      rw [hC]
      rw [parseStringBody_ser _ k.data _ (by rw [List.length_append]; omega)]
      show parseMemberAfterKey m k
        (':' :: ' ' :: ((serVal v ++ ',' :: ' ' :: serMembers ((k2, v2) :: t2)) ++ rest)) =
        .ok ((k, v) :: (k2, v2) :: t2, rest)
      cases m with
      | zero => omega
      | succ g =>
      have hD : parseMemberAfterKey (g + 1) k
          (':' :: ' ' :: ((serVal v ++ ',' :: ' ' :: serMembers ((k2, v2) :: t2)) ++ rest)) =
          (match parseVal g
              (' ' :: ((serVal v ++ ',' :: ' ' :: serMembers ((k2, v2) :: t2)) ++ rest)) with
          | .error e => .error e
          | .ok (v', rest4) => parseMemberTail g k v' rest4) := rfl
      rw [hD, parseVal_ws]
      rw [show (serVal v ++ ',' :: ' ' :: serMembers ((k2, v2) :: t2)) ++ rest =
          serVal v ++ (',' :: ' ' :: (serMembers ((k2, v2) :: t2) ++ rest)) from by
        rw [List.append_assoc]
        rfl]
      rw [(ih g (by omega)).1 v (',' :: ' ' :: (serMembers ((k2, v2) :: t2) ++ rest))
        (by omega) rfl]
      show parseMemberTail g k v (',' :: ' ' :: (serMembers ((k2, v2) :: t2) ++ rest)) =
        Except.ok ((k, v) :: (k2, v2) :: t2, rest)
      cases g with
      | zero => omega
      | succ g2 =>
      have hE : parseMemberTail (g2 + 1) k v
          (',' :: ' ' :: (serMembers ((k2, v2) :: t2) ++ rest)) =
          (match parseMembers g2 (' ' :: (serMembers ((k2, v2) :: t2) ++ rest)) with
          | .ok (kvs', rem) => .ok ((k, v) :: kvs', rem)
          | .error e => .error e) := rfl
      rw [hE, parseMembers_ws, (ih g2 (by omega)).2.2 k2 v2 t2 rest (by omega)]

/-- The JSON wire layer round-trips every value. -/
theorem jsonParse_serialize (v : JValue) : jsonParse (jsonSerialize v) = .ok v := by
  unfold jsonParse jsonSerialize
  rw [show (String.mk (serVal v)).data = serVal v from rfl]
  have h := (parse_ser (2 * (serVal v).length + 2)).1 v [] (by omega) rfl
  rw [List.append_nil] at h
  rw [h]
  rfl

/-! ## Dict lookup lemmas for the dumped message object -/

/-- Folding the lookup step over a list from any accumulator: a key hit in the
list wins, otherwise the accumulator survives. -/
theorem jget_foldl (k : String) (l : List (String × JValue)) :
    ∀ acc : Option JValue,
      List.foldl (fun acc p => if p.1 = k then some p.2 else acc) acc l =
        match jget l k with
        | some v => some v
        | none => acc := by
  induction l with
  | nil =>
    intro acc
    rfl
  | cons p t ih =>
    intro acc
    show List.foldl _ (if p.1 = k then some p.2 else acc) t = _
    rw [ih]
    have hjc : jget (p :: t) k =
        List.foldl (fun acc p => if p.1 = k then some p.2 else acc)
          (if p.1 = k then some p.2 else none) t := rfl
    rw [hjc, ih]
    cases hj : jget t k with
    | some w => rfl
    | none =>
      by_cases hp : p.1 = k
      · rw [if_pos hp, if_pos hp]
      · rw [if_neg hp, if_neg hp]

/-- Lookup distributes over append with the right (later) list winning, as
Python dict construction overwrites earlier keys. -/
theorem jget_append (l1 l2 : List (String × JValue)) (k : String) :
    jget (l1 ++ l2) k =
      match jget l2 k with
      | some v => some v
      | none => jget l1 k := by
  show List.foldl _ none (l1 ++ l2) = _
  rw [List.foldl_append, jget_foldl]
  rfl

theorem jget_append_right (l1 l2 : List (String × JValue)) (k : String) (v : JValue)
    (h : jget l2 k = some v) : jget (l1 ++ l2) k = some v := by
  rw [jget_append, h]

theorem jget_append_left (l1 l2 : List (String × JValue)) (k : String)
    (h : jget l2 k = none) : jget (l1 ++ l2) k = jget l1 k := by
  rw [jget_append, h]

theorem jget_append_none (l1 l2 : List (String × JValue)) (k : String)
    (h1 : jget l1 k = none) (h2 : jget l2 k = none) : jget (l1 ++ l2) k = none := by
  rw [jget_append, h2, h1]

theorem jget_single_ne (kk k : String) (v : JValue) (h : ¬kk = k) :
    jget [(kk, v)] k = none := by
  show (if kk = k then some v else none) = none
  rw [if_neg h]

theorem jget_optStrSeg_ne (kk k : String) (x : Option String) (h : ¬kk = k) :
    jget (optStrSeg kk x) k = none := by
  cases x with
  | none => rfl
  | some s =>
    show (if kk = k then some (JValue.str s) else none) = none
    rw [if_neg h]

theorem jget_optStrSeg_same (kk : String) (x : Option String) :
    jget (optStrSeg kk x) kk = x.map JValue.str := by
  cases x with
  | none => rfl
  | some s =>
    show (if kk = kk then some (JValue.str s) else none) = some (JValue.str s)
    rw [if_pos rfl]

/-- Every key other than the first field block's own keys and `rich_text` is
absent from the tail of the dumped object that follows the four required
fields. -/
theorem jget_msgtail_none (m : Message) (rtv : List (String × JValue)) (k : String)
    (hk : jget rtv k = none) (n1 : ¬"media_url" = k) (n2 : ¬"content" = k)
    (n3 : ¬"date" = k) (n4 : ¬"time" = k) (n5 : ¬"botmsg" = k) (n6 : ¬"room" = k)
    (n7 : ¬"opt" = k) :
    jget (optStrSeg "media_url" m.media_url ++
      ([("content", JValue.str m.content)] ++ (rtv ++
       (optStrSeg "date" m.date ++ (optStrSeg "time" m.time ++
        ([("botmsg", JValue.bool m.botmsg)] ++ (optStrSeg "room" m.room ++
         [("opt", JValue.obj m.opt)]))))))) k = none := by
  refine jget_append_none _ _ _ (jget_optStrSeg_ne _ _ _ n1) ?_
  refine jget_append_none _ _ _ (jget_single_ne _ _ _ n2) ?_
  refine jget_append_none _ _ _ hk ?_
  refine jget_append_none _ _ _ (jget_optStrSeg_ne _ _ _ n3) ?_
  refine jget_append_none _ _ _ (jget_optStrSeg_ne _ _ _ n4) ?_
  refine jget_append_none _ _ _ (jget_single_ne _ _ _ n5) ?_
  exact jget_append_none _ _ _ (jget_optStrSeg_ne _ _ _ n6) (jget_single_ne _ _ _ n7)

theorem jget_append_of_left_none (l1 l2 : List (String × JValue)) (k : String)
    (h : jget l1 k = none) : jget (l1 ++ l2) k = jget l2 k := by
  rw [jget_append]
  cases hj : jget l2 k with
  | some v => rfl
  | none => rw [h]

/-! ## Rich-text round trip -/

/-- Serializing well-formed runs succeeds with the entry-wise dumps. -/
theorem richTextSerialize_ok (runs : List (TextStyle × JValue))
    (h : runs.all strRun = true) :
    richTextSerialize runs =
      .ok (runs.map (fun p => JValue.arr [TextStyle.dump p.1, p.2])) := by
  unfold richTextSerialize
  have h2 : runs.all (fun p => match p.2 with | .str _ => true | _ => false) = true := by
    rw [List.all_eq_true] at h ⊢
    intro x hx
    have h3 : (x.1.validb && (match x.2 with | .str _ => true | _ => false)) = true :=
      h x hx
    rw [Bool.and_eq_true] at h3
    exact h3.2
  rw [if_pos h2]

/-- Reloading the entry-wise dumps of well-formed runs restores the runs. -/
theorem richText_runs_load (runs : List (TextStyle × JValue))
    (h : runs.all strRun = true) :
    (runs.map (fun p => JValue.arr [TextStyle.dump p.1, p.2])).mapM richTextEntryLoad =
      .ok runs := by
  induction runs with
  | nil => rfl
  | cons p t ih =>
    rw [List.all_cons, Bool.and_eq_true] at h
    obtain ⟨hp, ht⟩ := h
    have hp2 : (p.1.validb && (match p.2 with | .str _ => true | _ => false)) = true := hp
    rw [Bool.and_eq_true] at hp2
    have hv : p.1.validb = true := hp2.1
    simp only [List.map_cons, List.mapM_cons]
    rw [show richTextEntryLoad (JValue.arr [TextStyle.dump p.1, p.2]) =
        (TextStyle.load (TextStyle.dump p.1)).map (fun ts => (ts, p.2)) from rfl]
    rw [TextStyle.load_dump p.1 hv, ih ht]
    rfl

/-- `RichTextField._deserialize` undoes the serialized runs. -/
theorem richTextDeserialize_dump (runs : List (TextStyle × JValue))
    (h : runs.all strRun = true) :
    richTextDeserialize (.arr (runs.map (fun p => JValue.arr [TextStyle.dump p.1, p.2]))) =
      .ok (some runs) := by
  rw [show richTextDeserialize
        (.arr (runs.map (fun p => JValue.arr [TextStyle.dump p.1, p.2]))) =
      (match (runs.map (fun p => JValue.arr [TextStyle.dump p.1, p.2])).mapM
          richTextEntryLoad with
       | .ok rs => Except.ok (some rs)
       | .error _ => Except.error JErr.richTextStructure) from rfl]
  rw [richText_runs_load runs h]

/-! ## Message schema round trip -/

/-- Loading the dumped wire object of a message recovers the field data of
the message, provided the mtype is enumerated and the rich-text segment
reloads to the message's rich text. -/
theorem messageSchemaLoad_dump (m : Message) (rtv : List (String × JValue))
    (hmt : m.mtype ∈ mtypeAllowed)
    (hno : ∀ k, ¬k = "rich_text" → jget rtv k = none)
    (hrt : match jget rtv "rich_text" with
           | none => m.rich_text = none
           | some x => richTextDeserialize x = .ok m.rich_text) :
    messageSchemaLoad (.obj (dumpKvs m rtv)) = .ok (msgDataOf m) := by
  have hexp : dumpKvs m rtv =
      [("channel", JValue.str m.channel), ("sender", JValue.str m.sender),
       ("receiver", JValue.str m.receiver), ("mtype", JValue.str m.mtype)] ++
      (optStrSeg "media_url" m.media_url ++
       ([("content", JValue.str m.content)] ++ (rtv ++
        (optStrSeg "date" m.date ++ (optStrSeg "time" m.time ++
         ([("botmsg", JValue.bool m.botmsg)] ++ (optStrSeg "room" m.room ++
          [("opt", JValue.obj m.opt)]))))))) := rfl
  have hK_ch : jget (dumpKvs m rtv) "channel" = some (JValue.str m.channel) := by
    rw [hexp, jget_append_left _ _ _ (jget_msgtail_none m rtv _ (hno _ (by decide))
      (by decide) (by decide) (by decide) (by decide) (by decide) (by decide) (by decide))]
    rfl
  have hK_se : jget (dumpKvs m rtv) "sender" = some (JValue.str m.sender) := by
    rw [hexp, jget_append_left _ _ _ (jget_msgtail_none m rtv _ (hno _ (by decide))
      (by decide) (by decide) (by decide) (by decide) (by decide) (by decide) (by decide))]
    rfl
  have hK_re : jget (dumpKvs m rtv) "receiver" = some (JValue.str m.receiver) := by
    rw [hexp, jget_append_left _ _ _ (jget_msgtail_none m rtv _ (hno _ (by decide))
      (by decide) (by decide) (by decide) (by decide) (by decide) (by decide) (by decide))]
    rfl
  have hK_mt : jget (dumpKvs m rtv) "mtype" = some (JValue.str m.mtype) := by
    rw [hexp, jget_append_left _ _ _ (jget_msgtail_none m rtv _ (hno _ (by decide))
      (by decide) (by decide) (by decide) (by decide) (by decide) (by decide) (by decide))]
    rfl
  have hK_mu : jget (dumpKvs m rtv) "media_url" = m.media_url.map JValue.str := by
    rw [hexp, jget_append_of_left_none _ _ _ (by rfl),
      jget_append_left _ _ _
        (jget_append_none _ _ _ (jget_single_ne _ _ _ (by decide))
          (jget_append_none _ _ _ (hno _ (by decide))
            (jget_append_none _ _ _ (jget_optStrSeg_ne _ _ _ (by decide))
              (jget_append_none _ _ _ (jget_optStrSeg_ne _ _ _ (by decide))
                (jget_append_none _ _ _ (jget_single_ne _ _ _ (by decide))
                  (jget_append_none _ _ _ (jget_optStrSeg_ne _ _ _ (by decide))
                    (jget_single_ne _ _ _ (by decide)))))))),
      jget_optStrSeg_same]
  have hK_co : jget (dumpKvs m rtv) "content" = some (JValue.str m.content) := by
    rw [hexp, jget_append_of_left_none _ _ _ (by rfl),
      jget_append_of_left_none _ _ _ (jget_optStrSeg_ne _ _ _ (by decide)),
      jget_append_left _ _ _
        (jget_append_none _ _ _ (hno _ (by decide))
          (jget_append_none _ _ _ (jget_optStrSeg_ne _ _ _ (by decide))
            (jget_append_none _ _ _ (jget_optStrSeg_ne _ _ _ (by decide))
              (jget_append_none _ _ _ (jget_single_ne _ _ _ (by decide))
                (jget_append_none _ _ _ (jget_optStrSeg_ne _ _ _ (by decide))
                  (jget_single_ne _ _ _ (by decide)))))))]
    rfl
  have hK_rt : jget (dumpKvs m rtv) "rich_text" = jget rtv "rich_text" := by
    rw [hexp, jget_append_of_left_none _ _ _ (by rfl),
      jget_append_of_left_none _ _ _ (jget_optStrSeg_ne _ _ _ (by decide)),
      jget_append_of_left_none _ _ _ (jget_single_ne _ _ _ (by decide)),
      jget_append_left _ _ _
        (jget_append_none _ _ _ (jget_optStrSeg_ne _ _ _ (by decide))
          (jget_append_none _ _ _ (jget_optStrSeg_ne _ _ _ (by decide))
            (jget_append_none _ _ _ (jget_single_ne _ _ _ (by decide))
              (jget_append_none _ _ _ (jget_optStrSeg_ne _ _ _ (by decide))
                (jget_single_ne _ _ _ (by decide))))))]
  have hK_da : jget (dumpKvs m rtv) "date" = m.date.map JValue.str := by
    rw [hexp, jget_append_of_left_none _ _ _ (by rfl),
      jget_append_of_left_none _ _ _ (jget_optStrSeg_ne _ _ _ (by decide)),
      jget_append_of_left_none _ _ _ (jget_single_ne _ _ _ (by decide)),
      jget_append_of_left_none _ _ _ (hno _ (by decide)),
      jget_append_left _ _ _
        (jget_append_none _ _ _ (jget_optStrSeg_ne _ _ _ (by decide))
          (jget_append_none _ _ _ (jget_single_ne _ _ _ (by decide))
            (jget_append_none _ _ _ (jget_optStrSeg_ne _ _ _ (by decide))
              (jget_single_ne _ _ _ (by decide))))),
      jget_optStrSeg_same]
  have hK_ti : jget (dumpKvs m rtv) "time" = m.time.map JValue.str := by
    rw [hexp, jget_append_of_left_none _ _ _ (by rfl),
      jget_append_of_left_none _ _ _ (jget_optStrSeg_ne _ _ _ (by decide)),
      jget_append_of_left_none _ _ _ (jget_single_ne _ _ _ (by decide)),
      jget_append_of_left_none _ _ _ (hno _ (by decide)),
      jget_append_of_left_none _ _ _ (jget_optStrSeg_ne _ _ _ (by decide)),
      jget_append_left _ _ _
        (jget_append_none _ _ _ (jget_single_ne _ _ _ (by decide))
          (jget_append_none _ _ _ (jget_optStrSeg_ne _ _ _ (by decide))
            (jget_single_ne _ _ _ (by decide)))),
      jget_optStrSeg_same]
  have hK_bo : jget (dumpKvs m rtv) "botmsg" = some (JValue.bool m.botmsg) := by
    rw [hexp, jget_append_of_left_none _ _ _ (by rfl),
      jget_append_of_left_none _ _ _ (jget_optStrSeg_ne _ _ _ (by decide)),
      jget_append_of_left_none _ _ _ (jget_single_ne _ _ _ (by decide)),
      jget_append_of_left_none _ _ _ (hno _ (by decide)),
      jget_append_of_left_none _ _ _ (jget_optStrSeg_ne _ _ _ (by decide)),
      jget_append_of_left_none _ _ _ (jget_optStrSeg_ne _ _ _ (by decide)),
      jget_append_left _ _ _
        (jget_append_none _ _ _ (jget_optStrSeg_ne _ _ _ (by decide))
          (jget_single_ne _ _ _ (by decide)))]
    rfl
  have hK_ro : jget (dumpKvs m rtv) "room" = m.room.map JValue.str := by
    rw [hexp, jget_append_of_left_none _ _ _ (by rfl),
      jget_append_of_left_none _ _ _ (jget_optStrSeg_ne _ _ _ (by decide)),
      jget_append_of_left_none _ _ _ (jget_single_ne _ _ _ (by decide)),
      jget_append_of_left_none _ _ _ (hno _ (by decide)),
      jget_append_of_left_none _ _ _ (jget_optStrSeg_ne _ _ _ (by decide)),
      jget_append_of_left_none _ _ _ (jget_optStrSeg_ne _ _ _ (by decide)),
      jget_append_of_left_none _ _ _ (jget_single_ne _ _ _ (by decide)),
      jget_append_left _ _ _ (jget_single_ne _ _ _ (by decide)),
      jget_optStrSeg_same]
  have hK_op : jget (dumpKvs m rtv) "opt" = some (JValue.obj m.opt) := by
    rw [hexp, jget_append_of_left_none _ _ _ (by rfl),
      jget_append_of_left_none _ _ _ (jget_optStrSeg_ne _ _ _ (by decide)),
      jget_append_of_left_none _ _ _ (jget_single_ne _ _ _ (by decide)),
      jget_append_of_left_none _ _ _ (hno _ (by decide)),
      jget_append_of_left_none _ _ _ (jget_optStrSeg_ne _ _ _ (by decide)),
      jget_append_of_left_none _ _ _ (jget_optStrSeg_ne _ _ _ (by decide)),
      jget_append_of_left_none _ _ _ (jget_single_ne _ _ _ (by decide)),
      jget_append_of_left_none _ _ _ (jget_optStrSeg_ne _ _ _ (by decide))]
    rfl
  have hF1 : loadStrField (dumpKvs m rtv) "channel" = .ok (some m.channel) := by
    unfold loadStrField
    rw [hK_ch]
  have hF2 : loadStrField (dumpKvs m rtv) "sender" = .ok (some m.sender) := by
    unfold loadStrField
    rw [hK_se]
  have hF3 : loadStrField (dumpKvs m rtv) "receiver" = .ok (some m.receiver) := by
    unfold loadStrField
    rw [hK_re]
  have hF4 : loadMtypeField (dumpKvs m rtv) = .ok (some m.mtype) := by
    unfold loadMtypeField
    rw [hK_mt]
    show (if m.mtype ∈ mtypeAllowed then Except.ok (some m.mtype)
      else Except.error JErr.enumConstraint) = Except.ok (some m.mtype)
    rw [if_pos hmt]
  have hF5 : loadStrField (dumpKvs m rtv) "media_url" = .ok m.media_url := by
    unfold loadStrField
    rw [hK_mu]
    cases m.media_url with
    | none => rfl
    | some s => rfl
  have hF6 : loadStrField (dumpKvs m rtv) "content" = .ok (some m.content) := by
    unfold loadStrField
    rw [hK_co]
  have hF7 : loadRichTextField (dumpKvs m rtv) = .ok m.rich_text := by
    unfold loadRichTextField
    rw [hK_rt]
    cases hj : jget rtv "rich_text" with
    | none =>
      rw [hj] at hrt
      have h2 : m.rich_text = none := hrt
      rw [h2]
    | some x =>
      rw [hj] at hrt
      exact hrt
  have hF8 : loadStrField (dumpKvs m rtv) "date" = .ok m.date := by
    unfold loadStrField
    rw [hK_da]
    cases m.date with
    | none => rfl
    | some s => rfl
  have hF9 : loadStrField (dumpKvs m rtv) "time" = .ok m.time := by
    unfold loadStrField
    rw [hK_ti]
    cases m.time with
    | none => rfl
    | some s => rfl
  have hF10 : loadBoolField (dumpKvs m rtv) "botmsg" = .ok (some m.botmsg) := by
    unfold loadBoolField
    rw [hK_bo]
  have hF11 : loadStrField (dumpKvs m rtv) "room" = .ok m.room := by
    unfold loadStrField
    rw [hK_ro]
    cases m.room with
    | none => rfl
    | some s => rfl
  have hF12 : loadDictField (dumpKvs m rtv) "opt" = .ok (some m.opt) := by
    unfold loadDictField
    rw [hK_op]
  simp only [messageSchemaLoad]
  rw [hF1, hF2, hF3, hF4, hF5, hF6, hF7, hF8, hF9, hF10, hF11, hF12]
  rfl

/-- `Message(**data)` on the loaded field data of a message rebuilds the
message. -/
theorem msgFromData_of (m : Message) : msgFromData (msgDataOf m) = .ok m := rfl

/-- The full load pipeline undoes the dump of a message wire object. -/
theorem messageLoadPipeline_dump (m : Message) (rtv : List (String × JValue))
    (hmt : m.mtype ∈ mtypeAllowed)
    (hno : ∀ k, ¬k = "rich_text" → jget rtv k = none)
    (hrt : match jget rtv "rich_text" with
           | none => m.rich_text = none
           | some x => richTextDeserialize x = .ok m.rich_text) :
    messageLoadPipeline (jsonSerialize (.obj (dumpKvs m rtv))) = .ok m := by
  unfold messageLoadPipeline
  rw [jsonParse_serialize]
  show Except.bind (messageSchemaLoad (.obj (dumpKvs m rtv))) (fun d => msgFromData d) =
    .ok m
  rw [messageSchemaLoad_dump m rtv hmt hno hrt]
  show msgFromData (msgDataOf m) = .ok m
  exact msgFromData_of m

/-- A successful pipeline is what `Message.loads` returns. -/
theorem loads_of_ok (s : String) (m : Message) (h : messageLoadPipeline s = .ok m) :
    Message.loads s = m := by
  unfold Message.loads
  rw [h]

/-- A failed pipeline makes `Message.loads` return the sentinel. -/
theorem loads_of_error (s : String) (e : JErr) (h : messageLoadPipeline s = .error e) :
    Message.loads s = sentinelMsg := by
  unfold Message.loads
  rw [h]

/-! ## Claims about the message envelope -/

/-- C1: `Message.loads` is total on text — by the catch-all `except` it always
returns a message — and whenever anything in the parse/load/construct pipeline
fails it returns exactly the fixed sentinel with channel "fishroom", sender
"fishroom", receiver "None", content "Error", mtype text, botmsg false, no
rich text, and empty opt. -/
theorem c1_loads_total_sentinel (s : String) (e : JErr)
    (h : messageLoadPipeline s = .error e) :
    Message.loads s = sentinelMsg ∧ sentinelMsg.channel = "fishroom" ∧
    sentinelMsg.sender = "fishroom" ∧ sentinelMsg.receiver = "None" ∧
    sentinelMsg.content = "Error" ∧ sentinelMsg.mtype = "text" ∧
    sentinelMsg.botmsg = false ∧ sentinelMsg.rich_text = none ∧
    sentinelMsg.opt = [] :=
  ⟨loads_of_error s e h, rfl, rfl, rfl, rfl, rfl, rfl, rfl, rfl⟩

theorem c1_loads_total_sentinel_witness :
    messageLoadPipeline "not json" = .error JErr.jsonParse ∧
    Message.loads "not json" = sentinelMsg :=
  ⟨rfl, (c1_loads_total_sentinel "not json" JErr.jsonParse rfl).1⟩

/-- C3: decoding wire text whose `mtype` value is a string outside the
enumerated kinds never yields a message carrying the invalid input — the
schema load fails (on `mtype` by the `OneOf` validator, or even earlier on a
malformed required field) and `Message.loads` returns the fixed sentinel. -/
theorem c3_enum_rejection (s : String) (kvs : List (String × JValue)) (t : String)
    (hparse : jsonParse s = .ok (.obj kvs))
    (hmt : jget kvs "mtype" = some (.str t))
    (ht : t ∉ mtypeAllowed) :
    Message.loads s = sentinelMsg := by
  have hmte : loadMtypeField kvs = .error .enumConstraint := by
    unfold loadMtypeField
    rw [hmt]
    show (if t ∈ mtypeAllowed then Except.ok (some t)
      else Except.error JErr.enumConstraint) = Except.error JErr.enumConstraint
    rw [if_neg ht]
  have hml : ∃ e, messageSchemaLoad (.obj kvs) = .error e := by
    cases h1 : loadStrField kvs "channel" with
    | error e => exact ⟨e, by simp only [messageSchemaLoad]; rw [h1]; rfl⟩
    | ok c1 =>
      cases h2 : loadStrField kvs "sender" with
      | error e => exact ⟨e, by simp only [messageSchemaLoad]; rw [h1, h2]; rfl⟩
      | ok c2 =>
        cases h3 : loadStrField kvs "receiver" with
        | error e => exact ⟨e, by simp only [messageSchemaLoad]; rw [h1, h2, h3]; rfl⟩
        | ok c3 =>
          exact ⟨.enumConstraint, by
            simp only [messageSchemaLoad]
            rw [h1, h2, h3, hmte]
            rfl⟩
  obtain ⟨e, he⟩ := hml
  refine loads_of_error s e ?_
  unfold messageLoadPipeline
  rw [hparse]
  show Except.bind (messageSchemaLoad (.obj kvs)) (fun d => msgFromData d) = .error e
  rw [he]
  rfl

theorem c3_enum_rejection_witness :
    jsonParse (jsonSerialize (.obj [("mtype", JValue.str "bogus")])) =
      .ok (.obj [("mtype", JValue.str "bogus")]) ∧
    "bogus" ∉ mtypeAllowed ∧
    Message.loads (jsonSerialize (.obj [("mtype", JValue.str "bogus")])) = sentinelMsg :=
  ⟨jsonParse_serialize _, by decide,
   c3_enum_rejection _ [("mtype", JValue.str "bogus")] "bogus" (jsonParse_serialize _)
     rfl (by decide)⟩

set_option maxRecDepth 100000 in
set_option maxHeartbeats 2000000 in
/-- C5 counterexample: the message round-trip fails for a valid message (with
enumerated channel "telegram" and mtype "text") whose rich-text style carries
`Color(5)` with no background: its dump succeeds, but reloading the dumped
color `[5, null]` raises, the schema load fails, and decode returns the
sentinel instead of the original message. -/
theorem c5_message_roundtrip_cex :
    msgC5cex.channel ∈ channelKinds ∧ msgC5cex.mtype ∈ mtypeAllowed ∧
    (Message.dumps msgC5cex).map Message.loads = .ok sentinelMsg ∧
    sentinelMsg ≠ msgC5cex := by
  refine ⟨by decide, by decide, by rfl, ?_⟩
  intro h
  exact absurd (congrArg Message.channel h) (by decide)

/-- C5 (amended): for every valid message — enumerated channel and mtype, and
every rich-text run carrying a valid style (background present when colored)
and a string text — the dump succeeds and decoding the dumped wire text
returns the message field-for-field.  Messages whose rich-text color lacks a
background fail the round-trip (see the counterexample). -/
theorem c5_message_roundtrip_amended (m : Message) (h : m.validb = true) :
    ∃ s, Message.dumps m = .ok s ∧ Message.loads s = m := by
  unfold Message.validb at h
  rw [Bool.and_eq_true, Bool.and_eq_true] at h
  obtain ⟨⟨-, hmt'⟩, hrt⟩ := h
  have hmt : m.mtype ∈ mtypeAllowed := of_decide_eq_true hmt'
  cases hc : m.rich_text with
  | none =>
    refine ⟨jsonSerialize (.obj (dumpKvs m [])), ?_, ?_⟩
    · unfold Message.dumps messageSchemaDump
      rw [hc]
      rfl
    · exact loads_of_ok _ _ (messageLoadPipeline_dump m [] hmt (fun k hk => rfl) hc)
  | some runs =>
    rw [hc] at hrt
    have hall : runs.all strRun = true := hrt
    refine ⟨jsonSerialize (.obj (dumpKvs m
      [("rich_text", .arr (runs.map (fun p => JValue.arr [TextStyle.dump p.1, p.2])))])),
      ?_, ?_⟩
    · unfold Message.dumps messageSchemaDump
      rw [hc]
      show Except.map jsonSerialize
          (Except.bind
            (Except.map (fun v => [("rich_text", JValue.arr v)]) (richTextSerialize runs))
            (fun rt => Except.ok (JValue.obj (dumpKvs m rt)))) =
        Except.ok (jsonSerialize (.obj (dumpKvs m
          [("rich_text", .arr (runs.map (fun p => JValue.arr [TextStyle.dump p.1, p.2])))])))
      rw [richTextSerialize_ok runs hall]
      rfl
    · refine loads_of_ok _ _ (messageLoadPipeline_dump m _ hmt ?_ ?_)
      · intro k hk
        exact jget_single_ne _ _ _ (fun he => hk he.symm)
      · show richTextDeserialize
            (.arr (runs.map (fun p => JValue.arr [TextStyle.dump p.1, p.2]))) =
          .ok m.rich_text
        rw [hc]
        exact richTextDeserialize_dump runs hall

theorem c5_message_roundtrip_amended_witness :
    msgScenario.validb = true ∧
    (∃ s, Message.dumps msgScenario = .ok s ∧ Message.loads s = msgScenario) ∧
    tsScenario.style = 3 ∧ tsScenario.color = some ⟨5, some 6⟩ :=
  ⟨by decide, c5_message_roundtrip_amended msgScenario (by decide), rfl, rfl⟩

/-- C9: on a bytes input the UTF-8 decoding step runs before the `try` block,
so a non-UTF-8 bytes input makes `Message.loads` propagate the decoding error
to the caller instead of returning any message (sentinel included). -/
theorem c9_bytes_decode_propagates (bs : List Nat) (h : utf8Decode bs = none) :
    Message.loadsBytes bs = .error JErr.unicodeDecode ∧
    ∀ m : Message, Message.loadsBytes bs ≠ .ok m := by
  unfold Message.loadsBytes
  rw [h]
  exact ⟨rfl, fun m hm => Except.noConfusion hm⟩

theorem c9_bytes_decode_propagates_witness :
    utf8Decode [255] = none ∧
    (Message.loadsBytes [255] = .error JErr.unicodeDecode ∧
     ∀ m : Message, Message.loadsBytes [255] ≠ .ok m) :=
  ⟨rfl, c9_bytes_decode_propagates [255] rfl⟩

end Fishroom
